import Mathlib

/-!
# Verification of the turbo-firestore-api local-mirror synchronization engine

A shallow embedding of the optimistic-mutation coordinators (the collection
hook `useTurboCollection`, the single-document hook `useTurboDocument`, the
standalone `TurboDocumentService`), the subscription lifecycle, the
auth-gated retry supervisors (`useAuthSync`, `FirebaseAuthService`), the
exception mapping `TurboFirestoreException.fromFirestoreError` and
`TurboFirestoreApi.docExists`, together with proofs of the testable
properties stated for them.

External collaborators (the remote store, caller-supplied transforms, the
batch staging and commit steps) are modelled by explicit outcome
parameters: every optimistic operation takes the outcome its single remote
call would deliver, and caller-supplied transforms return inside `Except`
so that a transform that raises is represented by `Except.error`.
-/

namespace Turbo

/-- A fault raised by caller-supplied code (a thrown JS exception),
carrying its message. -/
abbrev Fault := String

/-- An entity with a stable identity string: the document payloads that
live in a mirror.  The payload is abstracted to a single integer field. -/
structure Entity where
  id : String
  val : Int
deriving DecidableEq, Repr

/-- The error carried by a failure result: the JS `Error`/
`TurboFirestoreException` object, reduced to its code (empty for a plain
`Error`) and message. -/
structure Err where
  code : String
  msg : String
deriving DecidableEq, Repr

/-- `TurboResponse` from turbo-response: a discriminated success/failure
value.  `success(value, title?, message?)` / `fail(error, title?,
message?)`. -/
inductive TResp (α : Type) where
  | success (value : α) (title message : Option String)
  | fail (error : Err) (title message : Option String)
deriving DecidableEq, Repr

/-- `isSuccess` on a TurboResponse. -/
def TResp.isSuccess {α : Type} : TResp α → Bool
  | .success _ _ _ => true
  | .fail _ _ _ => false

/-- `TurboAuthVars`: the fresh-identity / timestamp / user bundle handed to
caller-supplied transforms. -/
structure Vars where
  id : String
  now : Int
  userId : String
deriving DecidableEq, Repr

/-- A caller-supplied create transform `(vars) => T`; `Except.error`
models the transform throwing. -/
abbrev CreateDef := Vars → Except Fault Entity

/-- A caller-supplied update transform `(current, vars) => T`. -/
abbrev UpdateDef := Entity → Vars → Except Fault Entity

/-- A caller-supplied upsert transform `(currentOrNull, vars) => T`. -/
abbrev UpsertDef := Option Entity → Vars → Except Fault Entity

/-! ## The collection mirror: a JS `Map<string, T>` as an association list -/

/-- The backing store of the collection mirror (`docsById`), in insertion
order, as a JS `Map` is. -/
abbrev CollMap := List (String × Entity)

/-- `Map.get`: the value at the first (unique, for genuine `Map` states)
entry with the given key. -/
def mapGet : CollMap → String → Option Entity
  | [], _ => none
  | (k, v) :: t, key => if k = key then some v else mapGet t key

/-- `Map.set`: replace the entry with this key in place, or append a new
entry at the end. -/
def mapSet : CollMap → String → Entity → CollMap
  | [], key, v => [(key, v)]
  | (k, w) :: t, key, v => if k = key then (key, v) :: t else (k, w) :: mapSet t key v

/-- `Map.delete`: remove the entry with this key, if present. -/
def mapDelete : CollMap → String → CollMap
  | [], _ => []
  | (k, w) :: t, key => if k = key then t else (k, w) :: mapDelete t key

/-! ## `useTurboCollection`: the collection-mirror optimistic coordinator

Each operation takes the pre-call mirror, the caller-supplied transform,
the vars bundle, and the outcome the remote call would return
(`api.createDoc` / `api.updateDoc` / `api.deleteDoc` catch internally and
always resolve with a `TurboResponse`).  The result records the post-call
mirror, the resolved response, and whether the remote store was invoked.
A transform that throws escapes the hook uncaught (`Except.error`). -/

/-- Outcome of one collection-hook call: post-call mirror, resolved
response, and whether a remote-store operation was invoked. -/
structure CollResult (α : Type) where
  state : CollMap
  resp : TResp α
  remoteCalled : Bool
deriving DecidableEq

namespace UseTurboCollection

/-- `useTurboCollection.createDoc`: apply the transform, optimistically
`set` the new doc, call `api.createDoc`; on failure delete the new doc's id
and resolve `fail`, on success resolve `success(newDoc, title, message)`. -/
def createDoc (m : CollMap) (d : CreateDef) (vars : Vars) (remote : TResp Unit) :
    Except Fault (CollResult Entity) :=
  match d vars with
  | .error f => .error f
  | .ok newDoc =>
    let m1 := mapSet m newDoc.id newDoc
    match remote with
    | .fail e t tm => .ok ⟨mapDelete m1 newDoc.id, .fail e t tm, true⟩
    | .success _ t tm => .ok ⟨m1, .success newDoc t tm, true⟩

/-- `useTurboCollection.updateDoc`: fail fast when the id is absent
(`tryFindById` returns null) without touching the remote store; otherwise
optimistically `set` the transformed doc, call `api.updateDoc`, and on
failure `set` the previous doc back. -/
def updateDoc (m : CollMap) (id : String) (d : UpdateDef) (vars : Vars)
    (remote : TResp Unit) : Except Fault (CollResult Entity) :=
  match mapGet m id with
  | none =>
    .ok ⟨m, .fail ⟨"", "Document with id \"" ++ id ++ "\" not found"⟩
      (some "Update Failed")
      (some ("Cannot update non-existent document with id \"" ++ id ++ "\"")), false⟩
  | some current =>
    match d current vars with
    | .error f => .error f
    | .ok updatedDoc =>
      let m1 := mapSet m id updatedDoc
      match remote with
      | .fail e t tm => .ok ⟨mapSet m1 id current, .fail e t tm, true⟩
      | .success _ t tm => .ok ⟨m1, .success updatedDoc t tm, true⟩

/-- `useTurboCollection.updateDoc` with its caller-supplied serialization
step made explicit: the source builds the `api.updateDoc` argument by
evaluating `updatedDoc.toJson()` in hook scope — after the optimistic
write and outside any try — so a raising serialization escapes the hook
before the remote store is invoked, with the optimistic value left in the
mirror.  A fault carries the mirror state at the moment of the throw (the
transform throws before the optimistic write, the serialization after);
`updateDoc` above is this function's restriction to non-raising
serializations (`collUpdateDocFull_restrict`). -/
def updateDocFull (m : CollMap) (id : String) (d : UpdateDef)
    (serialize : Entity → Except Fault Unit) (vars : Vars)
    (remote : TResp Unit) : Except (Fault × CollMap) (CollResult Entity) :=
  match mapGet m id with
  | none =>
    .ok ⟨m, .fail ⟨"", "Document with id \"" ++ id ++ "\" not found"⟩
      (some "Update Failed")
      (some ("Cannot update non-existent document with id \"" ++ id ++ "\"")), false⟩
  | some current =>
    match d current vars with
    | .error f => .error (f, m)
    | .ok updatedDoc =>
      let m1 := mapSet m id updatedDoc
      match serialize updatedDoc with
      | .error f => .error (f, m1)
      | .ok _ =>
        match remote with
        | .fail e t tm => .ok ⟨mapSet m1 id current, .fail e t tm, true⟩
        | .success _ t tm => .ok ⟨m1, .success updatedDoc t tm, true⟩

/-- `useTurboCollection.upsertDoc`: no existence pre-check — the transform
receives `tryFindById(id)` (present value or null); optimistically `set`,
call `api.createDoc` with merge, and on failure restore the previous value
or delete the entry when there was none. -/
def upsertDoc (m : CollMap) (id : String) (d : UpsertDef) (vars : Vars)
    (remote : TResp Unit) : Except Fault (CollResult Entity) :=
  let current := mapGet m id
  match d current vars with
  | .error f => .error f
  | .ok upsertedDoc =>
    let m1 := mapSet m id upsertedDoc
    match remote with
    | .fail e t tm =>
      .ok ⟨(match current with
            | some previousDoc => mapSet m1 id previousDoc
            | none => mapDelete m1 id), .fail e t tm, true⟩
    | .success _ t tm => .ok ⟨m1, .success upsertedDoc t tm, true⟩

/-- `useTurboCollection.deleteDoc`: fail fast when the id is absent;
otherwise optimistically delete, call `api.deleteDoc`, and on failure `set`
the previous doc back. -/
def deleteDoc (m : CollMap) (id : String) (remote : TResp Unit) :
    CollResult Unit :=
  match mapGet m id with
  | none =>
    ⟨m, .fail ⟨"", "Document with id \"" ++ id ++ "\" not found"⟩
      (some "Delete Failed")
      (some ("Cannot delete non-existent document with id \"" ++ id ++ "\"")), false⟩
  | some current =>
    let m1 := mapDelete m id
    match remote with
    | .fail e t tm => ⟨mapSet m1 id current, .fail e t tm, true⟩
    | .success _ t tm => ⟨m1, .success () t tm, true⟩

end UseTurboCollection

/-! ## `useTurboDocument`: the single-document hook

State is the current doc (`doc` / `previousDocRef.current`, kept in sync
by `updateLocalState`): at most one `Entity` or absent. -/

/-- Outcome of one single-document call: post-call doc state, resolved
response, and whether a remote-store operation was invoked. -/
structure DocResult (α : Type) where
  state : Option Entity
  resp : TResp α
  remoteCalled : Bool
deriving DecidableEq

namespace UseTurboDocument

/-- `useTurboDocument.createDoc`: optimistically install the new doc, call
`api.createDoc`; on failure restore the previous doc (which may be null). -/
def createDoc (cur : Option Entity) (d : CreateDef) (vars : Vars)
    (remote : TResp Unit) : Except Fault (DocResult Entity) :=
  match d vars with
  | .error f => .error f
  | .ok newDoc =>
    match remote with
    | .fail e t tm => .ok ⟨cur, .fail e t tm, true⟩
    | .success _ _ _ => .ok ⟨some newDoc, .success newDoc none none, true⟩

/-- `useTurboDocument.updateDoc`: fail fast with a `not-found`
`TurboFirestoreException` when no doc is loaded, without calling the remote
store; otherwise optimistic update with rollback on failure. -/
def updateDoc (cur : Option Entity) (d : UpdateDef) (vars : Vars)
    (remote : TResp Unit) : Except Fault (DocResult Entity) :=
  match cur with
  | none =>
    .ok ⟨none, .fail ⟨"not-found", "Cannot update: document does not exist"⟩
      none (some "Cannot update: document does not exist"), false⟩
  | some currentDoc =>
    match d currentDoc vars with
    | .error f => .error f
    | .ok updatedDoc =>
      match remote with
      | .fail e t tm => .ok ⟨some currentDoc, .fail e t tm, true⟩
      | .success _ _ _ => .ok ⟨some updatedDoc, .success updatedDoc none none, true⟩

/-- `useTurboDocument.updateDoc` with its caller-supplied serialization
step made explicit: the source evaluates `updatedDoc.toJson()` in hook
scope — after `updateLocalState(updatedDoc)` and outside any try — so a
raising serialization escapes the hook before `api.updateDoc` is invoked,
with the optimistic doc left as the state.  A fault carries the doc state
at the moment of the throw; `updateDoc` above is this function's
restriction to non-raising serializations (`docUpdateDocFull_restrict`). -/
def updateDocFull (cur : Option Entity) (d : UpdateDef)
    (serialize : Entity → Except Fault Unit) (vars : Vars)
    (remote : TResp Unit) : Except (Fault × Option Entity) (DocResult Entity) :=
  match cur with
  | none =>
    .ok ⟨none, .fail ⟨"not-found", "Cannot update: document does not exist"⟩
      none (some "Cannot update: document does not exist"), false⟩
  | some currentDoc =>
    match d currentDoc vars with
    | .error f => .error (f, some currentDoc)
    | .ok updatedDoc =>
      match serialize updatedDoc with
      | .error f => .error (f, some updatedDoc)
      | .ok _ =>
        match remote with
        | .fail e t tm => .ok ⟨some currentDoc, .fail e t tm, true⟩
        | .success _ _ _ => .ok ⟨some updatedDoc, .success updatedDoc none none, true⟩

/-- `useTurboDocument.upsertDoc`: no existence pre-check — the transform
receives the current doc or null; rollback restores the previous doc or
clears the state when there was none. -/
def upsertDoc (cur : Option Entity) (d : UpsertDef) (vars : Vars)
    (remote : TResp Unit) : Except Fault (DocResult Entity) :=
  match d cur vars with
  | .error f => .error f
  | .ok upsertedDoc =>
    match remote with
    | .fail e t tm => .ok ⟨cur, .fail e t tm, true⟩
    | .success _ _ _ => .ok ⟨some upsertedDoc, .success upsertedDoc none none, true⟩

/-- `useTurboDocument.deleteDoc`: no existence check — it always clears the
local state and always calls `api.deleteDoc`, resolving with the remote
outcome; on failure the previous doc (possibly null) is restored. -/
def deleteDoc (cur : Option Entity) (remote : TResp Unit) : DocResult Unit :=
  match remote with
  | .fail e t tm => ⟨cur, .fail e t tm, true⟩
  | .success _ _ _ => ⟨none, .success () none none, true⟩

end UseTurboDocument

/-! ## `TurboDocumentService`: the standalone single-document coordinator

Every remote mutator wraps its whole body in try/catch and returns
`fail(error)` on a caught throw; none of them restores the previous local
value when the remote call resolves with a failure. -/

namespace TurboDocumentService

/-- `TurboDocumentService.createDoc`: `createLocalDoc` then `api.createDoc`;
a thrown transform is caught (state unchanged, since the throw happens
before the local update); a remote failure is returned as `fail` with the
optimistically-installed doc left in place. -/
def createDoc (cur : Option Entity) (d : CreateDef) (vars : Vars)
    (remote : TResp Unit) : DocResult Entity :=
  match d vars with
  | .error f => ⟨cur, .fail ⟨"", f⟩ none none, false⟩
  | .ok pDoc =>
    match remote with
    | .fail e t tm => ⟨some pDoc, .fail e t tm, true⟩
    | .success _ _ _ => ⟨some pDoc, .success pDoc none none, true⟩

/-- `TurboDocumentService.updateDoc`: fail fast when no doc is loaded;
otherwise `updateLocalDoc` then `api.updateDoc`, with no rollback on remote
failure. -/
def updateDoc (cur : Option Entity) (d : UpdateDef) (vars : Vars)
    (remote : TResp Unit) : DocResult Entity :=
  match cur with
  | none =>
    ⟨none, .fail ⟨"", "Cannot update non-existent document"⟩
      (some "Update Failed") (some "Document does not exist"), false⟩
  | some current =>
    match d current vars with
    | .error f => ⟨some current, .fail ⟨"", f⟩ none none, false⟩
    | .ok pDoc =>
      match remote with
      | .fail e t tm => ⟨some pDoc, .fail e t tm, true⟩
      | .success _ _ _ => ⟨some pDoc, .success pDoc none none, true⟩

/-- `TurboDocumentService.updateDoc` with its caller-supplied
serialization step made explicit: the source evaluates `pDoc.toJson()`
inside the method's try/catch, so a raising serialization is caught and
returned as `fail(error)` — after `updateLocalDoc` has already installed
the optimistic value, and before `api.updateDoc` is invoked.  `updateDoc`
above is this function's restriction to non-raising serializations
(`svcUpdateDocFull_restrict`). -/
def updateDocFull (cur : Option Entity) (d : UpdateDef)
    (serialize : Entity → Except Fault Unit) (vars : Vars)
    (remote : TResp Unit) : DocResult Entity :=
  match cur with
  | none =>
    ⟨none, .fail ⟨"", "Cannot update non-existent document"⟩
      (some "Update Failed") (some "Document does not exist"), false⟩
  | some current =>
    match d current vars with
    | .error f => ⟨some current, .fail ⟨"", f⟩ none none, false⟩
    | .ok pDoc =>
      match serialize pDoc with
      | .error f => ⟨some pDoc, .fail ⟨"", f⟩ none none, false⟩
      | .ok _ =>
        match remote with
        | .fail e t tm => ⟨some pDoc, .fail e t tm, true⟩
        | .success _ _ _ => ⟨some pDoc, .success pDoc none none, true⟩

/-- `TurboDocumentService.deleteDoc`: fail fast when no doc is loaded;
otherwise `deleteLocalDoc` then `api.deleteDoc`, with no rollback on remote
failure (the local state stays cleared). -/
def deleteDoc (cur : Option Entity) (remote : TResp Unit) : DocResult Unit :=
  match cur with
  | none =>
    ⟨none, .fail ⟨"", "Cannot delete non-existent document"⟩
      (some "Delete Failed") (some "Document does not exist"), false⟩
  | some _ =>
    match remote with
    | .fail e t tm => ⟨none, .fail e t tm, true⟩
    | .success _ _ _ => ⟨none, .success () none none, true⟩

/-- `TurboDocumentService.upsertDoc`: no existence pre-check —
`upsertLocalDoc` hands the transform the current value or null; then
`api.createDoc` with merge, with no rollback on remote failure. -/
def upsertDoc (cur : Option Entity) (d : UpsertDef) (vars : Vars)
    (remote : TResp Unit) : DocResult Entity :=
  match d cur vars with
  | .error f => ⟨cur, .fail ⟨"", f⟩ none none, false⟩
  | .ok pDoc =>
    match remote with
    | .fail e t tm => ⟨some pDoc, .fail e t tm, true⟩
    | .success _ _ _ => ⟨some pDoc, .success pDoc none none, true⟩

end TurboDocumentService

/-! ## Collection batch mutations

Per-item staging (`api.createDocInBatch` / `api.updateDocInBatch` /
`api.deleteDocInBatch`) is synchronous and catches internally, so it is
modelled by a per-item outcome function; the final `batch.commit()` either
resolves or throws, modelled by an `Except Err Unit`. -/

/-- `docs.forEach(doc => map.set(doc.id, doc))`. -/
def setAll (m : CollMap) (docs : List Entity) : CollMap :=
  docs.foldl (fun acc doc => mapSet acc doc.id doc) m

/-- `docs.forEach(doc => map.delete(doc.id))`. -/
def deleteAll (m : CollMap) (docs : List Entity) : CollMap :=
  docs.foldl (fun acc doc => mapDelete acc doc.id) m

/-- `ids.forEach(id => map.delete(id))`. -/
def deleteAllIds (m : CollMap) (ids : List String) : CollMap :=
  ids.foldl (fun acc id => mapDelete acc id) m

/-- `pairs.forEach((doc, id) => map.set(id, doc))` — restoring a captured
`previousDocs` map in insertion order. -/
def restoreAll (m : CollMap) (pairs : List (String × Entity)) : CollMap :=
  pairs.foldl (fun acc p => mapSet acc p.1 p.2) m

namespace UseTurboCollection

/-- Accumulated preparation state of `updateDocs`'s first loop: either the
early `fail` for a missing id, or the captured `previousDocs` map together
with the transformed docs. -/
inductive BatchPrep where
  | failEarly (e : Err) (title message : Option String)
  | ready (previousDocs : List (String × Entity)) (updatedDocs : List Entity)
deriving DecidableEq

/-- The first loop of `useTurboCollection.updateDocs`: for each `(id, def)`
in order, look the id up in the (pre-call) mirror, returning the batch-fail
response on a miss, otherwise record the previous doc and push the
transformed doc.  A throwing transform escapes. -/
def collectUpdates (m : CollMap) (vars : Vars) (prev : List (String × Entity))
    (ups : List Entity) : List (String × UpdateDef) → Except Fault BatchPrep
  | [] => .ok (.ready prev ups)
  | (id, d) :: rest =>
    match mapGet m id with
    | none =>
      .ok (.failEarly ⟨"", "Document with id \"" ++ id ++ "\" not found"⟩
        (some "Batch Update Failed")
        (some ("Cannot update non-existent document with id \"" ++ id ++ "\"")))
    | some current =>
      match d current vars with
      | .error f => .error f
      | .ok u => collectUpdates m vars (mapSet prev id current) (ups ++ [u]) rest

/-- The first loop of `useTurboCollection.deleteDocs`: capture the previous
doc of every id, failing early on a miss. -/
def collectDeletes (m : CollMap) (prev : List (String × Entity)) :
    List String → BatchPrep
  | [] => .ready prev []
  | id :: rest =>
    match mapGet m id with
    | none =>
      .failEarly ⟨"", "Document with id \"" ++ id ++ "\" not found"⟩
        (some "Batch Delete Failed")
        (some ("Cannot delete non-existent document with id \"" ++ id ++ "\""))
    | some current => collectDeletes m (mapSet prev id current) rest

/-- `useTurboCollection.createDocs`: apply every def, optimistically `set`
all new docs, stage each in the batch; if any staging result failed, delete
every new doc's id and resolve that failure; otherwise commit, deleting
every new doc's id if the commit throws. -/
def createDocs (m : CollMap) (defs : List CreateDef) (vars : Vars)
    (stage : Entity → TResp Unit) (commit : Except Err Unit) :
    Except Fault (CollResult (List Entity)) :=
  match defs.mapM (fun d => d vars) with
  | .error f => .error f
  | .ok newDocs =>
    let m1 := setAll m newDocs
    match (newDocs.map stage).find? (fun r => !r.isSuccess) with
    | some (TResp.fail e t tm) =>
      .ok ⟨deleteAll m1 newDocs, .fail e t tm, true⟩
    | _ =>
      match commit with
      | .error e =>
        .ok ⟨deleteAll m1 newDocs,
          .fail e (some "Batch Create Failed")
            (some "Failed to commit batch create operation"), true⟩
      | .ok _ => .ok ⟨m1, .success newDocs none none, true⟩

/-- `useTurboCollection.updateDocs`: collect previous docs and transformed
docs (failing early on a missing id), optimistically `set` all transformed
docs, stage each; on a staging failure or a commit throw, `set` every
previous doc back under its original id. -/
def updateDocs (m : CollMap) (updates : List (String × UpdateDef)) (vars : Vars)
    (stage : Entity → TResp Unit) (commit : Except Err Unit) :
    Except Fault (CollResult (List Entity)) :=
  match collectUpdates m vars [] [] updates with
  | .error f => .error f
  | .ok (.failEarly e t tm) => .ok ⟨m, .fail e t tm, false⟩
  | .ok (.ready previousDocs updatedDocs) =>
    let m1 := setAll m updatedDocs
    match (updatedDocs.map stage).find? (fun r => !r.isSuccess) with
    | some (TResp.fail e t tm) =>
      .ok ⟨restoreAll m1 previousDocs, .fail e t tm, true⟩
    | _ =>
      match commit with
      | .error e =>
        .ok ⟨restoreAll m1 previousDocs,
          .fail e (some "Batch Update Failed")
            (some "Failed to commit batch update operation"), true⟩
      | .ok _ => .ok ⟨m1, .success updatedDocs none none, true⟩

/-- `useTurboCollection.deleteDocs`: collect previous docs (failing early
on a missing id), optimistically delete all ids, stage each deletion; on a
staging failure or a commit throw, `set` every previous doc back. -/
def deleteDocs (m : CollMap) (ids : List String)
    (stage : String → TResp Unit) (commit : Except Err Unit) :
    CollResult Unit :=
  match collectDeletes m [] ids with
  | .failEarly e t tm => ⟨m, .fail e t tm, false⟩
  | .ready previousDocs _ =>
    let m1 := deleteAllIds m ids
    match (ids.map stage).find? (fun r => !r.isSuccess) with
    | some (TResp.fail e t tm) =>
      ⟨restoreAll m1 previousDocs, .fail e t tm, true⟩
    | _ =>
      match commit with
      | .error e =>
        ⟨restoreAll m1 previousDocs,
          .fail e (some "Batch Delete Failed")
            (some "Failed to commit batch delete operation"), true⟩
      | .ok _ => ⟨m1, .success () none none, true⟩

end UseTurboCollection

/-! ## Subscription handles and the document-service stream -/

/-- An observable action on subscription handles, in the order the code
performs it: releasing (calling) an unsubscribe handle, or installing a
newly returned one. -/
inductive SubEvent where
  | released (h : Nat)
  | installed (h : Nat)
deriving DecidableEq, Repr

namespace TurboDocumentService

/-- `TurboDocumentService.stopStream`: call and clear the unsubscribe
handle if present; idempotent when none is live. -/
def stopStream (sub : Option Nat) : Option Nat × List SubEvent :=
  match sub with
  | some h => (none, [SubEvent.released h])
  | none => (none, [])

/-- `TurboDocumentService.stream`: `stopStream()` first, then subscribe via
`api.streamDocByIdWithConverter` and install the returned handle. -/
def stream (sub : Option Nat) (newHandle : Nat) : Option Nat × List SubEvent :=
  let stopped := stopStream sub
  (some newHandle, stopped.2 ++ [SubEvent.installed newHandle])

end TurboDocumentService

/-! ## `useAuthSync`: the hook-based auth-gated retry supervisor -/

namespace UseAuthSync

/-- The supervisor state held by the `useAuthSync` hook: the React state
(`isReady`, `cachedUserId`, `isRetrying`, `retryCount`) plus the refs
(`streamUnsubscribeRef`, `retryTimeoutRef`, `currentUserRef`). -/
structure AuthSyncState where
  isReady : Bool
  cachedUserId : Option String
  isRetrying : Bool
  retryCount : Nat
  streamSub : Option Nat
  retryTimerPending : Bool
  currentUser : Option String
deriving DecidableEq, Repr

/-- `cleanupStream`: call and clear the stream unsubscribe handle if
present, and clear any pending retry timer. -/
def cleanupStream (s : AuthSyncState) : AuthSyncState × List SubEvent :=
  ({ s with streamSub := none, retryTimerPending := false },
   match s.streamSub with
   | some h => [SubEvent.released h]
   | none => [])

/-- Observable outcome of one `handleStreamError` call. -/
structure ErrorOut where
  state : AuthSyncState
  onErrorFired : Bool
  onDoneFired : Option (Nat × Nat)
  timerScheduled : Bool
deriving DecidableEq, Repr

/-- `useAuthSync.handleStreamError`: fire `onError`, increment the retry
count; when the new count reaches `maxRetries`, stop retrying and fire
`onDone(newCount, maxRetries)` with no timer; otherwise mark retrying and
schedule the single-shot retry timer. -/
def handleStreamError (maxRetries : Nat) (s : AuthSyncState) : ErrorOut :=
  let newCount := s.retryCount + 1
  if maxRetries ≤ newCount then
    ⟨{ s with retryCount := newCount, isRetrying := false }, true,
      some (newCount, maxRetries), false⟩
  else
    ⟨{ s with retryCount := newCount, isRetrying := true, retryTimerPending := true },
      true, none, true⟩

/-- Observable outcome of one `setupStream` call. -/
structure SetupOut where
  state : AuthSyncState
  events : List SubEvent
  onDoneFired : Option (Nat × Nat)
  timerScheduled : Bool
deriving DecidableEq, Repr

/-- `useAuthSync.setupStream`: `cleanupStream()` first; then `onAuth` and
`stream(user)` run — a throw from either is routed to `handleStreamError`,
otherwise the returned handle is installed, `isReady` becomes true and the
retry counters reset. -/
def setupStream (maxRetries : Nat) (s : AuthSyncState)
    (streamResult : Except Fault Nat) : SetupOut :=
  let cleaned := cleanupStream s
  match streamResult with
  | .ok h =>
    ⟨{ cleaned.1 with
        streamSub := some h, isReady := true,
        retryCount := 0, isRetrying := false },
      cleaned.2 ++ [SubEvent.installed h], none, false⟩
  | .error _ =>
    let eo := handleStreamError maxRetries cleaned.1
    ⟨eo.state, cleaned.2, eo.onDoneFired, eo.timerScheduled⟩

/-- Observable outcome of one `handleSignOut` call. -/
structure SignOutOut where
  state : AuthSyncState
  releasedSubs : List Nat
  onDataCalls : List (Option String × Option String)
  onDoneFired : Option (Nat × Nat)
deriving DecidableEq, Repr

/-- `useAuthSync.handleSignOut`: `cleanupStream()` (stopping the live
subscription, if any, exactly once and cancelling any pending retry
timer), clear `cachedUserId`, `isReady`, retry state and the current-user
ref, invoke `onData(null, null)` exactly once, then `onDone(0, maxRetries)`. -/
def handleSignOut (maxRetries : Nat) (s : AuthSyncState) : SignOutOut :=
  ⟨{ isReady := false, cachedUserId := none, isRetrying := false,
     retryCount := 0, streamSub := none, retryTimerPending := false,
     currentUser := none },
   (match s.streamSub with | some h => [h] | none => []),
   [(none, none)],
   some (0, maxRetries)⟩

/-- The state after `n` consecutive `handleStreamError` steps (a
subscription error, a retry whose stream setup throws again, and so on,
with no intervening successful stream setup). -/
def errStates (maxRetries : Nat) (s0 : AuthSyncState) : Nat → AuthSyncState
  | 0 => s0
  | n + 1 => (handleStreamError maxRetries (errStates maxRetries s0 n)).state

end UseAuthSync

/-! ## `FirebaseAuthService`: the class-based auth-gated retry supervisor -/

namespace FirebaseAuthService

/-- `_maxNrOfRetry`, hard-coded to 20 in the service. -/
def maxNrOfRetry : Nat := 20

/-- The mutable fields of a `FirebaseAuthService` instance.  `nextHandle`
is a modelling device supplying fresh unsubscribe handles. -/
structure FAuthState where
  cachedUserId : Option String
  subscription : Option Nat
  userSubscription : Option Nat
  retryTimerPending : Bool
  nrOfRetry : Nat
  nextHandle : Nat
deriving DecidableEq, Repr

/-- `_resetStream`: call and clear the auth-state subscription and the data
subscription; returns the handles that were released. -/
def resetStream (s : FAuthState) : FAuthState × List Nat :=
  ({ s with userSubscription := none, subscription := none },
   (match s.userSubscription with | some h => [h] | none => []) ++
   (match s.subscription with | some h => [h] | none => []))

/-- Observable outcome of one `_tryRetry` call. -/
structure RetryOut where
  state : FAuthState
  timerScheduled : Bool
  onDoneFired : Bool
deriving DecidableEq, Repr

/-- `FirebaseAuthService._tryRetry`: while `_nrOfRetry < _maxNrOfRetry`,
(re)schedule the single-shot retry timer; otherwise reset the stream
subscriptions.  The count is not incremented here (only the timer callback
increments it), and `onDone` is not invoked on either branch. -/
def tryRetry (s : FAuthState) : RetryOut :=
  if s.nrOfRetry < maxNrOfRetry then
    ⟨{ s with retryTimerPending := true }, true, false⟩
  else
    ⟨(resetStream s).1, false, false⟩

/-- The stream error callback installed by `tryInitialiseStream`: it fires
`onError` and then `_tryRetry()`. -/
def streamErrorCallback (s : FAuthState) : RetryOut := tryRetry s

/-- `tryInitialiseStream`, reduced to its subscription effect: the
`_userSubscription ??=` assignment installs a fresh auth-state listener
only when none is live (a re-entrant call is a no-op). -/
def tryInitialiseStream (s : FAuthState) : FAuthState × List SubEvent :=
  match s.userSubscription with
  | some _ => (s, [])
  | none =>
    ({ s with userSubscription := some s.nextHandle, nextHandle := s.nextHandle + 1 },
     [SubEvent.installed s.nextHandle])

/-- The auth-state callback on a signed-in observation: cache the user id;
the `_subscription ??=` assignment installs a fresh data-stream handle only
when none is live (a second delivery while one is live installs nothing and
releases nothing). -/
def onAuthUser (s : FAuthState) (uid : String) : FAuthState × List SubEvent :=
  let s1 := { s with cachedUserId := some uid }
  match s1.subscription with
  | some _ => (s1, [])
  | none =>
    ({ s1 with subscription := some s1.nextHandle, nextHandle := s1.nextHandle + 1 },
     [SubEvent.installed s1.nextHandle])

/-- The auth-state callback on a signed-out observation: clear
`cachedUserId`, call and clear the data subscription, and invoke
`onData(null, null)`.  The retry timer and `_nrOfRetry` are left as they
were.  Returns the released data-stream handles and the `onData`
invocations. -/
def onAuthNull (s : FAuthState) :
    FAuthState × List Nat × List (Option String × Option String) :=
  ({ s with cachedUserId := none, subscription := none },
   (match s.subscription with | some h => [h] | none => []),
   [(none, none)])

/-- The retry-timer callback: increment `_nrOfRetry`, `_resetStream()`,
`tryInitialiseStream()` (which re-delivers the signed-in observation for
the still-signed-in user), then clear the timer field. -/
def retryTimerFire (s : FAuthState) (uid : String) : FAuthState :=
  let s1 := { s with nrOfRetry := s.nrOfRetry + 1 }
  let s2 := (resetStream s1).1
  let s3 := (tryInitialiseStream s2).1
  let s4 := (onAuthUser s3 uid).1
  { s4 with retryTimerPending := false }

/-- One full error-retry cycle while the stream keeps failing: the error
callback fires (`onError` + `_tryRetry`), then the scheduled timer fires. -/
def errorCycle (uid : String) (s : FAuthState) : FAuthState :=
  retryTimerFire (streamErrorCallback s).state uid

/-- A freshly-initialised, signed-in, streaming service instance. -/
def streamingState : FAuthState :=
  ⟨some "user-1", some 1, some 0, false, 0, 2⟩

/-- The service state after `n` full error-retry cycles starting from the
streaming state. -/
def cycles : Nat → FAuthState
  | 0 => streamingState
  | n + 1 => errorCycle "user-1" (cycles n)

end FirebaseAuthService

/-! ## `TurboFirestoreException.fromFirestoreError` -/

/-- A `FirestoreError` from the firebase SDK: a code, a message and an
optional stack string. -/
structure FirestoreError where
  code : String
  message : String
  stack : Option String
deriving DecidableEq, Repr

/-- The concrete `TurboFirestoreException` subclass, as a tag. -/
inductive ExceptionKind where
  | permissionDenied
  | unavailable
  | notFound
  | alreadyExists
  | cancelled
  | deadlineExceeded
  | generic
deriving DecidableEq, Repr

/-- A constructed `TurboFirestoreException`: its subclass tag and the
constructor arguments `(message, code, path, query, stackTrace)`. -/
structure TurboException where
  kind : ExceptionKind
  message : String
  code : String
  path : Option String
  query : Option String
  stackTrace : Option String
deriving DecidableEq, Repr

/-- `TurboFirestoreException.fromFirestoreError`: dispatch on `error.code`
to the dedicated subclass for the six recognised codes, `Generic`
otherwise, always passing `(error.message, error.code, path, query,
error.stack)` through. -/
def fromFirestoreError (error : FirestoreError) (path query : Option String) :
    TurboException :=
  let stackTrace := error.stack
  match error.code with
  | "permission-denied" =>
    ⟨.permissionDenied, error.message, error.code, path, query, stackTrace⟩
  | "unavailable" =>
    ⟨.unavailable, error.message, error.code, path, query, stackTrace⟩
  | "not-found" =>
    ⟨.notFound, error.message, error.code, path, query, stackTrace⟩
  | "already-exists" =>
    ⟨.alreadyExists, error.message, error.code, path, query, stackTrace⟩
  | "cancelled" =>
    ⟨.cancelled, error.message, error.code, path, query, stackTrace⟩
  | "deadline-exceeded" =>
    ⟨.deadlineExceeded, error.message, error.code, path, query, stackTrace⟩
  | _ =>
    ⟨.generic, error.message, error.code, path, query, stackTrace⟩

/-- The code-to-subclass mapping exactly as the claim words it, for
comparison with the source dispatch. -/
def claimCodeKind (code : String) : ExceptionKind :=
  if code = "permission-denied" then .permissionDenied
  else if code = "unavailable" then .unavailable
  else if code = "not-found" then .notFound
  else if code = "already-exists" then .alreadyExists
  else if code = "cancelled" then .cancelled
  else if code = "deadline-exceeded" then .deadlineExceeded
  else .generic

/-! ## `TurboFirestoreApi.docExists` -/

/-- The document snapshot returned by a point read, reduced to its
`exists()` bit. -/
structure DocSnapshot where
  exists_ : Bool
deriving DecidableEq, Repr

/-- `TurboFirestoreApi.docExists`: `getDoc` then `docSnap.exists()`, with
the whole body in a try/catch that resolves `false` on any thrown read
error. -/
def docExists (read : Except Err DocSnapshot) : Bool :=
  match read with
  | .ok docSnap => docSnap.exists_
  | .error _ => false


/-! ## Map and supervisor lemmas -/

theorem mapGet_mapSet_self (m : CollMap) (key : String) (v : Entity) :
    mapGet (mapSet m key v) key = some v := by
  induction m with
  | nil => simp [mapSet, mapGet]
  | cons p t ih =>
    obtain ⟨k, w⟩ := p
    by_cases h : k = key <;> simp [mapSet, mapGet, h, ih]

theorem mapGet_mapSet_ne (m : CollMap) {k key : String} (v : Entity) (h : k ≠ key) :
    mapGet (mapSet m key v) k = mapGet m k := by
  induction m with
  | nil => simp [mapSet, mapGet, Ne.symm h]
  | cons p t ih =>
    obtain ⟨k', w⟩ := p
    by_cases h' : k' = key
    · subst h'
      simp [mapSet, mapGet, Ne.symm h]
    · by_cases h'' : k' = k <;> simp [mapSet, mapGet, h, h', h'', ih]

theorem mapGet_mapDelete_ne (m : CollMap) {k key : String} (h : k ≠ key) :
    mapGet (mapDelete m key) k = mapGet m k := by
  induction m with
  | nil => simp [mapDelete]
  | cons p t ih =>
    obtain ⟨k', w⟩ := p
    by_cases h' : k' = key
    · subst h'
      simp [mapDelete, mapGet, Ne.symm h]
    · by_cases h'' : k' = k <;> simp [mapDelete, mapGet, h, h', h'', ih]

theorem mapSet_of_get_none {m : CollMap} {key : String} (v : Entity)
    (h : mapGet m key = none) : mapSet m key v = m ++ [(key, v)] := by
  induction m with
  | nil => simp [mapSet]
  | cons p t ih =>
    obtain ⟨k, w⟩ := p
    by_cases h' : k = key
    · simp [mapGet, h'] at h
    · simp [mapGet, h'] at h
      simp [mapSet, h', ih h]

theorem mapDelete_append_of_get_none {m : CollMap} {key : String} (l : CollMap)
    (h : mapGet m key = none) : mapDelete (m ++ l) key = m ++ mapDelete l key := by
  induction m with
  | nil => simp
  | cons p t ih =>
    obtain ⟨k, w⟩ := p
    by_cases h' : k = key
    · simp [mapGet, h'] at h
    · simp [mapGet, h'] at h
      simp [mapDelete, h', ih h]

/-- Rollback of a failed update: setting the identity back to its previous
value restores every lookup. -/
theorem mapGet_rollback_set {m : CollMap} {id : String} {cur : Entity}
    (h : mapGet m id = some cur) (u : Entity) (k : String) :
    mapGet (mapSet (mapSet m id u) id cur) k = mapGet m k := by
  by_cases hk : k = id
  · subst hk
    rw [mapGet_mapSet_self, h]
  · rw [mapGet_mapSet_ne _ _ hk, mapGet_mapSet_ne _ _ hk]

/-- Rollback of a failed delete: re-inserting the previous value restores
every lookup. -/
theorem mapGet_rollback_delete {m : CollMap} {id : String} {cur : Entity}
    (h : mapGet m id = some cur) (k : String) :
    mapGet (mapSet (mapDelete m id) id cur) k = mapGet m k := by
  by_cases hk : k = id
  · subst hk
    rw [mapGet_mapSet_self, h]
  · rw [mapGet_mapSet_ne _ _ hk, mapGet_mapDelete_ne _ hk]

/-- Rollback of a failed create of a fresh identity: deleting the entry
restores the map exactly. -/
theorem rollback_create_fresh {m : CollMap} {id : String} (u : Entity)
    (h : mapGet m id = none) : mapDelete (mapSet m id u) id = m := by
  rw [mapSet_of_get_none u h, mapDelete_append_of_get_none _ h]
  simp [mapDelete]

namespace UseAuthSync

theorem errStates_retryCount (maxRetries : Nat) (s0 : AuthSyncState) (n : Nat) :
    (errStates maxRetries s0 n).retryCount = s0.retryCount + n := by
  induction n with
  | zero => rfl
  | succ n ih =>
    have hstep : (handleStreamError maxRetries (errStates maxRetries s0 n)).state.retryCount
        = (errStates maxRetries s0 n).retryCount + 1 := by
      unfold handleStreamError
      by_cases h : maxRetries ≤ (errStates maxRetries s0 n).retryCount + 1 <;> simp [h]
    unfold errStates
    rw [hstep, ih, Nat.add_assoc]

end UseAuthSync

/-! ## Batch-rollback lemmas -/

/-- The number of entries carrying a given key (0 or 1 on genuine `Map`
states). -/
def keyCount (m : CollMap) (k : String) : Nat :=
  (m.filter (fun p => p.1 == k)).length

theorem keyCount_nil (k : String) : keyCount [] k = 0 := rfl

theorem keyCount_cons (k' : String) (w : Entity) (t : CollMap) (k : String) :
    keyCount ((k', w) :: t) k = (if k' = k then 1 else 0) + keyCount t k := by
  by_cases h : k' = k <;> simp [keyCount, List.filter_cons, h, Nat.add_comm]

theorem mapGet_eq_none_iff_keyCount_zero (m : CollMap) (k : String) :
    mapGet m k = none ↔ keyCount m k = 0 := by
  induction m with
  | nil => simp [mapGet, keyCount_nil]
  | cons p t ih =>
    obtain ⟨k', w⟩ := p
    by_cases h : k' = k <;> simp [mapGet, keyCount_cons, h, ih]

theorem keyCount_mapSet_ne {key k : String} (h : key ≠ k) (m : CollMap) (v : Entity) :
    keyCount (mapSet m key v) k = keyCount m k := by
  induction m with
  | nil => simp [mapSet, keyCount_cons, keyCount_nil, h]
  | cons p t ih =>
    obtain ⟨k', w⟩ := p
    by_cases h' : k' = key <;> simp [mapSet, keyCount_cons, h, h', ih]

theorem keyCount_mapSet_self (m : CollMap) (key : String) (v : Entity) :
    keyCount (mapSet m key v) key = max (keyCount m key) 1 := by
  induction m with
  | nil => simp [mapSet, keyCount_cons, keyCount_nil]
  | cons p t ih =>
    obtain ⟨k', w⟩ := p
    by_cases h' : k' = key
    · subst h'
      simp [mapSet, keyCount_cons]
    · simp [mapSet, keyCount_cons, h', ih]

theorem keyCount_mapDelete_ne {key k : String} (h : key ≠ k) (m : CollMap) :
    keyCount (mapDelete m key) k = keyCount m k := by
  induction m with
  | nil => simp [mapDelete]
  | cons p t ih =>
    obtain ⟨k', w⟩ := p
    by_cases h' : k' = key
    · subst h'
      simp [mapDelete, keyCount_cons, h]
    · simp [mapDelete, keyCount_cons, h', ih]

theorem keyCount_mapDelete_self (m : CollMap) (key : String) :
    keyCount (mapDelete m key) key = keyCount m key - 1 := by
  induction m with
  | nil => simp [mapDelete, keyCount_nil]
  | cons p t ih =>
    obtain ⟨k', w⟩ := p
    by_cases h' : k' = key
    · subst h'
      simp [mapDelete, keyCount_cons]
    · simp [mapDelete, keyCount_cons, h', ih]

theorem mapGet_setAll_not_mem {docs : List Entity} {k : String}
    (h : k ∉ docs.map Entity.id) : ∀ m, mapGet (setAll m docs) k = mapGet m k := by
  induction docs with
  | nil => intro m; rfl
  | cons d t ih =>
    intro m
    simp only [List.map_cons, List.mem_cons] at h
    push_neg at h
    have : mapGet (setAll (mapSet m d.id d) t) k = mapGet (mapSet m d.id d) k :=
      ih h.2 (mapSet m d.id d)
    simpa [setAll, mapGet_mapSet_ne _ _ h.1] using this

theorem mapGet_deleteAll_not_mem {docs : List Entity} {k : String}
    (h : k ∉ docs.map Entity.id) : ∀ m, mapGet (deleteAll m docs) k = mapGet m k := by
  induction docs with
  | nil => intro m; rfl
  | cons d t ih =>
    intro m
    simp only [List.map_cons, List.mem_cons] at h
    push_neg at h
    have : mapGet (deleteAll (mapDelete m d.id) t) k = mapGet (mapDelete m d.id) k :=
      ih h.2 (mapDelete m d.id)
    simpa [deleteAll, mapGet_mapDelete_ne _ h.1] using this

theorem mapGet_deleteAllIds_not_mem {ids : List String} {k : String}
    (h : k ∉ ids) : ∀ m, mapGet (deleteAllIds m ids) k = mapGet m k := by
  induction ids with
  | nil => intro m; rfl
  | cons i t ih =>
    intro m
    simp only [List.mem_cons] at h
    push_neg at h
    have : mapGet (deleteAllIds (mapDelete m i) t) k = mapGet (mapDelete m i) k :=
      ih h.2 (mapDelete m i)
    simpa [deleteAllIds, mapGet_mapDelete_ne _ h.1] using this

theorem mapGet_restoreAll_not_mem {pairs : List (String × Entity)} {k : String}
    (h : k ∉ pairs.map Prod.fst) : ∀ m, mapGet (restoreAll m pairs) k = mapGet m k := by
  induction pairs with
  | nil => intro m; rfl
  | cons p t ih =>
    intro m
    simp only [List.map_cons, List.mem_cons] at h
    push_neg at h
    have : mapGet (restoreAll (mapSet m p.1 p.2) t) k = mapGet (mapSet m p.1 p.2) k :=
      ih h.2 (mapSet m p.1 p.2)
    simpa [restoreAll, mapGet_mapSet_ne _ _ h.1] using this

theorem mem_keys_mapSet {m : CollMap} {key j : String} (v : Entity) :
    j ∈ (mapSet m key v).map Prod.fst ↔ j ∈ m.map Prod.fst ∨ j = key := by
  induction m with
  | nil => simp [mapSet]
  | cons p t ih =>
    obtain ⟨k', w⟩ := p
    by_cases h' : k' = key
    · subst h'
      simp [mapSet]
      tauto
    · simp [mapSet, h', ih]
      tauto

theorem nodupKeys_mapSet {m : CollMap} (h : (m.map Prod.fst).Nodup)
    (key : String) (v : Entity) : ((mapSet m key v).map Prod.fst).Nodup := by
  induction m with
  | nil => simp [mapSet]
  | cons p t ih =>
    obtain ⟨k', w⟩ := p
    simp only [List.map_cons, List.nodup_cons] at h
    by_cases h' : k' = key
    · subst h'
      simpa [mapSet] using h
    · have hmem : k' ∉ (mapSet t key v).map Prod.fst := fun hx =>
        ((mem_keys_mapSet v).mp hx).elim (fun hk => h.1 hk) (fun hk => h' hk)
      simp [mapSet, h', hmem, ih h.2]

theorem keyCount_setAll {docs : List Entity} {k : String} :
    ∀ m, keyCount m k ≤ 1 →
      keyCount (setAll m docs) k = if k ∈ docs.map Entity.id then 1 else keyCount m k := by
  induction docs with
  | nil => intro m _; simp [setAll]
  | cons d t ih =>
    intro m hm
    have step : setAll m (d :: t) = setAll (mapSet m d.id d) t := rfl
    by_cases hd : d.id = k
    · have h1 : keyCount (mapSet m d.id d) k = 1 := by
        subst hd
        rw [keyCount_mapSet_self]
        omega
      have hrec := ih (mapSet m d.id d) (le_of_eq h1)
      rw [step, hrec, h1]
      by_cases ht : k ∈ t.map Entity.id <;> simp [ht, hd]
    · have h1 : keyCount (mapSet m d.id d) k = keyCount m k :=
        keyCount_mapSet_ne hd m d
      have hrec := ih (mapSet m d.id d) (h1 ▸ hm)
      have hne : ¬ k = d.id := fun h => hd h.symm
      rw [step, hrec, h1]
      by_cases ht : k ∈ t.map Entity.id <;> simp [ht, hd, hne]

theorem keyCount_deleteAll_le (docs : List Entity) (k : String) :
    ∀ m, keyCount (deleteAll m docs) k ≤ keyCount m k := by
  induction docs with
  | nil => intro m; simp [deleteAll]
  | cons d t ih =>
    intro m
    have h1 : keyCount (mapDelete m d.id) k ≤ keyCount m k := by
      by_cases hd : d.id = k
      · subst hd
        rw [keyCount_mapDelete_self]
        omega
      · rw [keyCount_mapDelete_ne hd]
    calc keyCount (deleteAll m (d :: t)) k
        = keyCount (deleteAll (mapDelete m d.id) t) k := rfl
      _ ≤ keyCount (mapDelete m d.id) k := ih (mapDelete m d.id)
      _ ≤ keyCount m k := h1

theorem keyCount_deleteAll_of_mem {docs : List Entity} {k : String}
    (hk : k ∈ docs.map Entity.id) :
    ∀ m, keyCount m k ≤ 1 → keyCount (deleteAll m docs) k = 0 := by
  induction docs with
  | nil => simp at hk
  | cons d t ih =>
    intro m hm
    have step : deleteAll m (d :: t) = deleteAll (mapDelete m d.id) t := rfl
    by_cases hd : d.id = k
    · have h0 : keyCount (mapDelete m d.id) k = 0 := by
        subst hd
        rw [keyCount_mapDelete_self]
        omega
      have hle := keyCount_deleteAll_le t k (mapDelete m d.id)
      rw [step]
      omega
    · have ht : k ∈ t.map Entity.id := by
        simp only [List.map_cons, List.mem_cons] at hk
        exact hk.resolve_left (fun h => hd h.symm)
      have h1 : keyCount (mapDelete m d.id) k = keyCount m k :=
        keyCount_mapDelete_ne hd m
      have hrec := ih ht (mapDelete m d.id) (by omega)
      rw [step]
      exact hrec

/-- The rollback of `createDocs`: deleting every created id restores every
lookup, provided each created identity was absent from the pre-call
mirror. -/
theorem createDocs_rollback {m : CollMap} {docs : List Entity}
    (hfresh : ∀ u ∈ docs, mapGet m u.id = none) (k : String) :
    mapGet (deleteAll (setAll m docs) docs) k = mapGet m k := by
  by_cases hk : k ∈ docs.map Entity.id
  · obtain ⟨u, hu, hid⟩ := List.mem_map.mp hk
    have hnone : mapGet m k = none := hid ▸ hfresh u hu
    have hc0 : keyCount m k = 0 := (mapGet_eq_none_iff_keyCount_zero m k).mp hnone
    have hset : keyCount (setAll m docs) k = 1 := by
      rw [keyCount_setAll m (by omega)]
      simp [hk]
    have hdel : keyCount (deleteAll (setAll m docs) docs) k = 0 :=
      keyCount_deleteAll_of_mem hk (setAll m docs) (by omega)
    rw [hnone, (mapGet_eq_none_iff_keyCount_zero _ k).mpr hdel]
  · rw [mapGet_deleteAll_not_mem hk, mapGet_setAll_not_mem hk]

/-- Restoring a captured previous-docs map (with distinct keys): a key in
the map is reset to its captured value, any other key is untouched. -/
theorem mapGet_restoreAll {pairs : List (String × Entity)} :
    ∀ m k, (pairs.map Prod.fst).Nodup →
      mapGet (restoreAll m pairs) k =
        match mapGet pairs k with
        | some v => some v
        | none => mapGet m k := by
  induction pairs with
  | nil => intro m k _; simp [restoreAll, mapGet]
  | cons p t ih =>
    intro m k hnd
    obtain ⟨a, b⟩ := p
    simp only [List.map_cons, List.nodup_cons] at hnd
    by_cases hk : k = a
    · subst hk
      have hres : mapGet (restoreAll (mapSet m k b) t) k = mapGet (mapSet m k b) k :=
        mapGet_restoreAll_not_mem hnd.1 (mapSet m k b)
      simp [restoreAll, mapGet, List.foldl_cons] at hres ⊢
      rw [hres, mapGet_mapSet_self]
    · have := ih (mapSet m a b) k hnd.2
      simp [restoreAll, mapGet, List.foldl_cons, Ne.symm hk] at this ⊢
      rw [this, mapGet_mapSet_ne _ _ hk]

namespace UseTurboCollection

/-- What the first loop of `deleteDocs` produces when every id is present:
`previousDocs` maps exactly the requested ids to their pre-call values. -/
theorem collectDeletes_spec {m : CollMap} {ids : List String} :
    ∀ prev prev' ups',
      collectDeletes m prev ids = BatchPrep.ready prev' ups' →
      (∀ k, k ∉ ids → mapGet prev' k = mapGet prev k) ∧
      (∀ k, k ∈ ids → ∃ c, mapGet m k = some c ∧ mapGet prev' k = some c) ∧
      ((prev.map Prod.fst).Nodup → (prev'.map Prod.fst).Nodup) := by
  induction ids with
  | nil =>
    intro prev prev' ups' h
    simp only [collectDeletes, BatchPrep.ready.injEq] at h
    obtain ⟨rfl, rfl⟩ := h
    exact ⟨fun k _ => rfl, fun k hk => absurd hk (List.not_mem_nil k), fun hnd => hnd⟩
  | cons id rest ih =>
    intro prev prev' ups' h
    cases hmid : mapGet m id with
    | none => simp [collectDeletes, hmid] at h
    | some current =>
      simp only [collectDeletes, hmid] at h
      obtain ⟨ih1, ih2, ih3⟩ := ih (mapSet prev id current) prev' ups' h
      refine ⟨?_, ?_, ?_⟩
      · intro k hk
        simp only [List.mem_cons] at hk
        push_neg at hk
        rw [ih1 k hk.2, mapGet_mapSet_ne _ _ hk.1]
      · intro k hk
        by_cases hr : k ∈ rest
        · exact ih2 k hr
        · simp only [List.mem_cons] at hk
          have hkid : k = id := hk.resolve_right hr
          subst hkid
          refine ⟨current, hmid, ?_⟩
          rw [ih1 k hr, mapGet_mapSet_self]
      · intro hnd
        exact ih3 (nodupKeys_mapSet hnd id current)

/-- What the first loop of `updateDocs` produces when every id is present
and every transform returns: `previousDocs` maps exactly the requested ids
to their pre-call values, and (when transforms preserve the document id)
every transformed doc's id is a requested id. -/
theorem collectUpdates_spec {m : CollMap} {vars : Vars} :
    ∀ (updates : List (String × UpdateDef)) prev ups prev' ups',
      (∀ p ∈ updates, ∀ c u, p.2 c vars = Except.ok u → u.id = p.1) →
      collectUpdates m vars prev ups updates = .ok (.ready prev' ups') →
      (∀ k, k ∉ updates.map Prod.fst → mapGet prev' k = mapGet prev k) ∧
      (∀ k, k ∈ updates.map Prod.fst → ∃ c, mapGet m k = some c ∧ mapGet prev' k = some c) ∧
      (∀ u ∈ ups', u ∈ ups ∨ u.id ∈ updates.map Prod.fst) ∧
      ((prev.map Prod.fst).Nodup → (prev'.map Prod.fst).Nodup) := by
  intro updates
  induction updates with
  | nil =>
    intro prev ups prev' ups' _ h
    simp only [collectUpdates, Except.ok.injEq, BatchPrep.ready.injEq] at h
    obtain ⟨rfl, rfl⟩ := h
    exact ⟨fun k _ => rfl, fun k hk => absurd hk (List.not_mem_nil k),
      fun u hu => Or.inl hu, fun hnd => hnd⟩
  | cons p rest ih =>
    intro prev ups prev' ups' hpres h
    obtain ⟨id, d⟩ := p
    cases hmid : mapGet m id with
    | none => simp [collectUpdates, hmid] at h
    | some current =>
      cases hd : d current vars with
      | error f => simp [collectUpdates, hmid, hd] at h
      | ok u =>
        simp only [collectUpdates, hmid, hd] at h
        obtain ⟨ih1, ih2, ih3, ih4⟩ := ih (mapSet prev id current) (ups ++ [u]) prev' ups'
          (fun q hq => hpres q (List.mem_cons_of_mem _ hq)) h
        have huid : u.id = id := hpres (id, d) (List.mem_cons_self _ _) current u hd
        refine ⟨?_, ?_, ?_, ?_⟩
        · intro k hk
          simp only [List.map_cons, List.mem_cons] at hk
          push_neg at hk
          rw [ih1 k hk.2, mapGet_mapSet_ne _ _ hk.1]
        · intro k hk
          by_cases hr : k ∈ rest.map Prod.fst
          · exact ih2 k hr
          · simp only [List.map_cons, List.mem_cons] at hk
            have hkid : k = id := hk.resolve_right hr
            subst hkid
            refine ⟨current, hmid, ?_⟩
            rw [ih1 k hr, mapGet_mapSet_self]
        · intro u' hu'
          rcases ih3 u' hu' with hmem | hid
          · rcases List.mem_append.mp hmem with hmem' | hmem'
            · exact Or.inl hmem'
            · have : u' = u := List.mem_singleton.mp hmem'
              subst this
              exact Or.inr (by simp [huid])
          · exact Or.inr (by simp [hid])
        · intro hnd
          exact ih4 (nodupKeys_mapSet hnd id current)

/-- The rollback of `updateDocs`: restoring every captured previous doc
over the optimistically-updated mirror restores every lookup, provided the
transforms preserve document ids. -/
theorem updateDocs_rollback {m : CollMap} {vars : Vars}
    {updates : List (String × UpdateDef)} {prev : List (String × Entity)}
    {ups : List Entity}
    (hpres : ∀ p ∈ updates, ∀ c u, p.2 c vars = Except.ok u → u.id = p.1)
    (h : collectUpdates m vars [] [] updates = .ok (.ready prev ups))
    (k : String) :
    mapGet (restoreAll (setAll m ups) prev) k = mapGet m k := by
  obtain ⟨h1, h2, h3, h4⟩ := collectUpdates_spec updates [] [] prev ups hpres h
  have hnd : (prev.map Prod.fst).Nodup := h4 (by simp)
  rw [mapGet_restoreAll _ k hnd]
  by_cases hk : k ∈ updates.map Prod.fst
  · obtain ⟨c, hmc, hpc⟩ := h2 k hk
    rw [hpc, hmc]
  · have hp : mapGet prev k = none := by rw [h1 k hk]; rfl
    rw [hp]
    have hups : k ∉ ups.map Entity.id := by
      intro hx
      obtain ⟨u, hu, hid⟩ := List.mem_map.mp hx
      rcases h3 u hu with hfalse | hmem
      · exact absurd hfalse (List.not_mem_nil u)
      · exact hk (hid ▸ hmem)
    exact mapGet_setAll_not_mem hups m

/-- The rollback of `deleteDocs`: restoring every captured previous doc
over the optimistically-deleted mirror restores every lookup. -/
theorem deleteDocs_rollback {m : CollMap} {ids : List String}
    {prev : List (String × Entity)} {ups : List Entity}
    (h : collectDeletes m [] ids = BatchPrep.ready prev ups)
    (k : String) :
    mapGet (restoreAll (deleteAllIds m ids) prev) k = mapGet m k := by
  obtain ⟨h1, h2, h3⟩ := collectDeletes_spec [] prev ups h
  have hnd : (prev.map Prod.fst).Nodup := h3 (by simp)
  rw [mapGet_restoreAll _ k hnd]
  by_cases hk : k ∈ ids
  · obtain ⟨c, hmc, hpc⟩ := h2 k hk
    rw [hpc, hmc]
  · have hp : mapGet prev k = none := by rw [h1 k hk]; rfl
    rw [hp]
    exact mapGet_deleteAllIds_not_mem hk m

end UseTurboCollection

/-- With a serialization that never raises, the full embedding of
`useTurboCollection.updateDoc` coincides with the serialization-total one
(a transform throw surfaces with the pre-write mirror attached). -/
theorem collUpdateDocFull_restrict (m : CollMap) (id : String) (d : UpdateDef)
    (serialize : Entity → Except Fault Unit) (vars : Vars) (remote : TResp Unit)
    (hser : ∀ u, serialize u = Except.ok ()) :
    UseTurboCollection.updateDocFull m id d serialize vars remote
      = match UseTurboCollection.updateDoc m id d vars remote with
        | Except.ok out => Except.ok out
        | Except.error f => Except.error (f, m) := by
  cases hm : mapGet m id with
  | none =>
    simp only [UseTurboCollection.updateDocFull, UseTurboCollection.updateDoc, hm]
  | some current =>
    cases hd : d current vars with
    | error f =>
      simp only [UseTurboCollection.updateDocFull, UseTurboCollection.updateDoc, hm, hd]
    | ok u =>
      simp only [UseTurboCollection.updateDocFull, UseTurboCollection.updateDoc,
        hm, hd, hser u]
      cases remote <;> rfl

/-- With a serialization that never raises, the full embedding of
`useTurboDocument.updateDoc` coincides with the serialization-total one. -/
theorem docUpdateDocFull_restrict (cur : Option Entity) (d : UpdateDef)
    (serialize : Entity → Except Fault Unit) (vars : Vars) (remote : TResp Unit)
    (hser : ∀ u, serialize u = Except.ok ()) :
    UseTurboDocument.updateDocFull cur d serialize vars remote
      = match UseTurboDocument.updateDoc cur d vars remote with
        | Except.ok out => Except.ok out
        | Except.error f => Except.error (f, cur) := by
  cases cur with
  | none =>
    simp only [UseTurboDocument.updateDocFull, UseTurboDocument.updateDoc]
  | some currentDoc =>
    cases hd : d currentDoc vars with
    | error f =>
      simp only [UseTurboDocument.updateDocFull, UseTurboDocument.updateDoc, hd]
    | ok u =>
      simp only [UseTurboDocument.updateDocFull, UseTurboDocument.updateDoc,
        hd, hser u]
      cases remote <;> rfl

/-- With a serialization that never raises, the full embedding of
`TurboDocumentService.updateDoc` coincides with the serialization-total
one. -/
theorem svcUpdateDocFull_restrict (cur : Option Entity) (d : UpdateDef)
    (serialize : Entity → Except Fault Unit) (vars : Vars) (remote : TResp Unit)
    (hser : ∀ u, serialize u = Except.ok ()) :
    TurboDocumentService.updateDocFull cur d serialize vars remote
      = TurboDocumentService.updateDoc cur d vars remote := by
  cases cur with
  | none =>
    simp only [TurboDocumentService.updateDocFull, TurboDocumentService.updateDoc]
  | some current =>
    cases hd : d current vars with
    | error f =>
      simp only [TurboDocumentService.updateDocFull, TurboDocumentService.updateDoc, hd]
    | ok u =>
      simp only [TurboDocumentService.updateDocFull, TurboDocumentService.updateDoc,
        hd, hser u]

/-! ## The claims -/

/-- Claim C9: for every `FirestoreError`, `fromFirestoreError` returns an
exception whose message and code equal the input's, whose path, query and
stackTrace are preserved, and whose concrete subclass is determined solely
by the code — the six recognised codes map to their dedicated subclasses
and every other code to the `Generic` subclass. -/
theorem C9_theorem (error : FirestoreError) (path query : Option String) :
    (fromFirestoreError error path query).message = error.message ∧
    (fromFirestoreError error path query).code = error.code ∧
    (fromFirestoreError error path query).path = path ∧
    (fromFirestoreError error path query).query = query ∧
    (fromFirestoreError error path query).stackTrace = error.stack ∧
    (fromFirestoreError error path query).kind = claimCodeKind error.code := by
  obtain ⟨code, message, stack⟩ := error
  unfold fromFirestoreError claimCodeKind
  split <;> simp_all

/-- Claim C10: `docExists` is a total function into `Bool` (it never
rejects); a read that errors resolves `false`, indistinguishable from a
read of a genuinely absent document; and a successful read resolves the
snapshot's `exists()` bit. -/
theorem C10_theorem :
    (∀ e : Err, docExists (Except.error e) = false) ∧
    (∀ e : Err, docExists (Except.error e) = docExists (Except.ok ⟨false⟩)) ∧
    (∀ snap : DocSnapshot, docExists (Except.ok snap) = snap.exists_) :=
  ⟨fun _ => rfl, fun _ => rfl, fun _ => rfl⟩

/-- Claim C1 counterexample: the claim includes `TurboDocumentService`
among the mirrors whose mutations roll back, but the service performs no
rollback — after a failed remote update the mirror holds the
optimistically-applied value, not the pre-call value. -/
theorem C1_counterexample :
    (TurboDocumentService.updateDoc (some ⟨"a", 1⟩)
        (fun _ _ => Except.ok ⟨"a", 2⟩) ⟨"g1", 0, "u1"⟩
        (TResp.fail ⟨"unavailable", "service unavailable"⟩ none none)).resp
      = TResp.fail ⟨"unavailable", "service unavailable"⟩ none none ∧
    (TurboDocumentService.updateDoc (some ⟨"a", 1⟩)
        (fun _ _ => Except.ok ⟨"a", 2⟩) ⟨"g1", 0, "u1"⟩
        (TResp.fail ⟨"unavailable", "service unavailable"⟩ none none)).state
      ≠ some ⟨"a", 1⟩ := by
  exact ⟨rfl, by decide⟩

/-- Claim C1 (amended): a failed remote call resolves with a failure
result and leaves the mirror entry at its pre-call value for the
collection hook's updateDoc, upsertDoc and deleteDoc, for its createDoc
when the created identity was absent beforehand, and for all four
mutations of the single-document hook; `TurboDocumentService` resolves
with a failure result but performs no rollback, leaving the
optimistically-applied value (or the cleared state, for delete) in the
mirror. -/
theorem C1_theorem :
    (∀ (m : CollMap) (id : String) (d : UpdateDef) (vars : Vars) (cur u : Entity)
        (e : Err) (t tm : Option String),
      mapGet m id = some cur → d cur vars = Except.ok u →
      UseTurboCollection.updateDoc m id d vars (TResp.fail e t tm)
        = Except.ok ⟨mapSet (mapSet m id u) id cur, TResp.fail e t tm, true⟩ ∧
      ∀ k, mapGet (mapSet (mapSet m id u) id cur) k = mapGet m k) ∧
    (∀ (m : CollMap) (id : String) (d : UpsertDef) (vars : Vars) (u : Entity)
        (e : Err) (t tm : Option String),
      d (mapGet m id) vars = Except.ok u →
      ∃ rolled, UseTurboCollection.upsertDoc m id d vars (TResp.fail e t tm)
        = Except.ok ⟨rolled, TResp.fail e t tm, true⟩ ∧
      ∀ k, mapGet rolled k = mapGet m k) ∧
    (∀ (m : CollMap) (id : String) (cur : Entity) (e : Err) (t tm : Option String),
      mapGet m id = some cur →
      UseTurboCollection.deleteDoc m id (TResp.fail e t tm)
        = ⟨mapSet (mapDelete m id) id cur, TResp.fail e t tm, true⟩ ∧
      ∀ k, mapGet (mapSet (mapDelete m id) id cur) k = mapGet m k) ∧
    (∀ (m : CollMap) (d : CreateDef) (vars : Vars) (u : Entity)
        (e : Err) (t tm : Option String),
      d vars = Except.ok u → mapGet m u.id = none →
      UseTurboCollection.createDoc m d vars (TResp.fail e t tm)
        = Except.ok ⟨m, TResp.fail e t tm, true⟩) ∧
    (∀ (cur : Option Entity) (d : CreateDef) (vars : Vars) (u : Entity)
        (e : Err) (t tm : Option String),
      d vars = Except.ok u →
      UseTurboDocument.createDoc cur d vars (TResp.fail e t tm)
        = Except.ok ⟨cur, TResp.fail e t tm, true⟩) ∧
    (∀ (cur u : Entity) (d : UpdateDef) (vars : Vars) (e : Err) (t tm : Option String),
      d cur vars = Except.ok u →
      UseTurboDocument.updateDoc (some cur) d vars (TResp.fail e t tm)
        = Except.ok ⟨some cur, TResp.fail e t tm, true⟩) ∧
    (∀ (cur : Option Entity) (d : UpsertDef) (vars : Vars) (u : Entity)
        (e : Err) (t tm : Option String),
      d cur vars = Except.ok u →
      UseTurboDocument.upsertDoc cur d vars (TResp.fail e t tm)
        = Except.ok ⟨cur, TResp.fail e t tm, true⟩) ∧
    (∀ (cur : Option Entity) (e : Err) (t tm : Option String),
      UseTurboDocument.deleteDoc cur (TResp.fail e t tm)
        = ⟨cur, TResp.fail e t tm, true⟩) ∧
    (∀ (cur : Option Entity) (d : CreateDef) (vars : Vars) (u : Entity)
        (e : Err) (t tm : Option String),
      d vars = Except.ok u →
      TurboDocumentService.createDoc cur d vars (TResp.fail e t tm)
        = ⟨some u, TResp.fail e t tm, true⟩) ∧
    (∀ (cur u : Entity) (d : UpdateDef) (vars : Vars) (e : Err) (t tm : Option String),
      d cur vars = Except.ok u →
      TurboDocumentService.updateDoc (some cur) d vars (TResp.fail e t tm)
        = ⟨some u, TResp.fail e t tm, true⟩) ∧
    (∀ (cur : Entity) (e : Err) (t tm : Option String),
      TurboDocumentService.deleteDoc (some cur) (TResp.fail e t tm)
        = ⟨none, TResp.fail e t tm, true⟩) ∧
    (∀ (cur : Option Entity) (d : UpsertDef) (vars : Vars) (u : Entity)
        (e : Err) (t tm : Option String),
      d cur vars = Except.ok u →
      TurboDocumentService.upsertDoc cur d vars (TResp.fail e t tm)
        = ⟨some u, TResp.fail e t tm, true⟩) := by
  refine ⟨?_, ?_, ?_, ?_, ?_, ?_, ?_, ?_, ?_, ?_, ?_, ?_⟩
  · intro m id d vars cur u e t tm hcur hd
    exact ⟨by simp [UseTurboCollection.updateDoc, hcur, hd],
      mapGet_rollback_set hcur u⟩
  · intro m id d vars u e t tm hd
    cases hcur : mapGet m id with
    | some previousDoc =>
      rw [hcur] at hd
      refine ⟨mapSet (mapSet m id u) id previousDoc, ?_, mapGet_rollback_set hcur u⟩
      simp [UseTurboCollection.upsertDoc, hcur, hd]
    | none =>
      rw [hcur] at hd
      refine ⟨mapDelete (mapSet m id u) id, ?_, ?_⟩
      · simp [UseTurboCollection.upsertDoc, hcur, hd]
      · intro k
        rw [rollback_create_fresh u hcur]
  · intro m id cur e t tm hcur
    exact ⟨by simp [UseTurboCollection.deleteDoc, hcur],
      mapGet_rollback_delete hcur⟩
  · intro m d vars u e t tm hd hfresh
    simp [UseTurboCollection.createDoc, hd, rollback_create_fresh u hfresh]
  · intro cur d vars u e t tm hd
    simp [UseTurboDocument.createDoc, hd]
  · intro cur u d vars e t tm hd
    simp [UseTurboDocument.updateDoc, hd]
  · intro cur d vars u e t tm hd
    simp [UseTurboDocument.upsertDoc, hd]
  · intro cur e t tm
    rfl
  · intro cur d vars u e t tm hd
    simp [TurboDocumentService.createDoc, hd]
  · intro cur u d vars e t tm hd
    simp [TurboDocumentService.updateDoc, hd]
  · intro cur e t tm
    rfl
  · intro cur d vars u e t tm hd
    simp [TurboDocumentService.upsertDoc, hd]

/-- Claim C1 witness: the amended theorem applied at a one-entry mirror
with a failing remote update. -/
theorem C1_witness :
    mapGet [("a", (⟨"a", 1⟩ : Entity))] "a" = some ⟨"a", 1⟩ ∧
    UseTurboCollection.updateDoc [("a", (⟨"a", 1⟩ : Entity))] "a"
        (fun _ _ => Except.ok ⟨"a", 2⟩) ⟨"g1", 0, "u1"⟩
        (TResp.fail ⟨"", "offline"⟩ none none)
      = Except.ok ⟨[("a", (⟨"a", 1⟩ : Entity))], TResp.fail ⟨"", "offline"⟩ none none, true⟩ := by
  refine ⟨rfl, ?_⟩
  have h := (C1_theorem.1 [("a", (⟨"a", 1⟩ : Entity))] "a"
    (fun _ _ => Except.ok ⟨"a", 2⟩) ⟨"g1", 0, "u1"⟩ ⟨"a", 1⟩ ⟨"a", 2⟩
    ⟨"", "offline"⟩ none none rfl rfl).1
  exact h.trans (by rfl)

/-- Claim C3 counterexample: `useTurboDocument.deleteDoc` performs no
existence check — called with no document loaded it still invokes the
remote delete and resolves with the remote outcome (here success), not
with a NotFound-flavored failure. -/
theorem C3_counterexample :
    UseTurboDocument.deleteDoc none (TResp.success () none none)
      = ⟨none, TResp.success () none none, true⟩ := rfl

/-- Claim C3 (amended): update and delete on a missing identity fail with
a NotFound-flavored failure, invoke no remote operation and leave the
mirror unchanged in the collection hook and in `TurboDocumentService`, and
so does update in the single-document hook; the single-document hook's
deleteDoc performs no existence check — it always invokes the remote
delete and resolves with the remote outcome, the mirror staying absent. -/
theorem C3_theorem :
    (∀ (m : CollMap) (id : String) (d : UpdateDef) (vars : Vars) (remote : TResp Unit),
      mapGet m id = none →
      UseTurboCollection.updateDoc m id d vars remote
        = Except.ok ⟨m, TResp.fail ⟨"", "Document with id \"" ++ id ++ "\" not found"⟩
            (some "Update Failed")
            (some ("Cannot update non-existent document with id \"" ++ id ++ "\"")),
          false⟩) ∧
    (∀ (m : CollMap) (id : String) (remote : TResp Unit),
      mapGet m id = none →
      UseTurboCollection.deleteDoc m id remote
        = ⟨m, TResp.fail ⟨"", "Document with id \"" ++ id ++ "\" not found"⟩
            (some "Delete Failed")
            (some ("Cannot delete non-existent document with id \"" ++ id ++ "\"")),
          false⟩) ∧
    (∀ (d : UpdateDef) (vars : Vars) (remote : TResp Unit),
      TurboDocumentService.updateDoc none d vars remote
        = ⟨none, TResp.fail ⟨"", "Cannot update non-existent document"⟩
            (some "Update Failed") (some "Document does not exist"), false⟩) ∧
    (∀ remote : TResp Unit,
      TurboDocumentService.deleteDoc none remote
        = ⟨none, TResp.fail ⟨"", "Cannot delete non-existent document"⟩
            (some "Delete Failed") (some "Document does not exist"), false⟩) ∧
    (∀ (d : UpdateDef) (vars : Vars) (remote : TResp Unit),
      UseTurboDocument.updateDoc none d vars remote
        = Except.ok ⟨none, TResp.fail ⟨"not-found", "Cannot update: document does not exist"⟩
            none (some "Cannot update: document does not exist"), false⟩) ∧
    (∀ (e : Err) (t tm : Option String),
      UseTurboDocument.deleteDoc none (TResp.fail e t tm)
        = ⟨none, TResp.fail e t tm, true⟩) ∧
    (∀ t tm : Option String,
      UseTurboDocument.deleteDoc none (TResp.success () t tm)
        = ⟨none, TResp.success () none none, true⟩) := by
  refine ⟨?_, ?_, fun _ _ _ => rfl, fun _ => rfl, fun _ _ _ => rfl,
    fun _ _ _ => rfl, fun _ _ => rfl⟩
  · intro m id d vars remote hnone
    simp [UseTurboCollection.updateDoc, hnone]
  · intro m id remote hnone
    simp [UseTurboCollection.deleteDoc, hnone]

/-- Claim C3 witness: the amended theorem applied to an empty mirror. -/
theorem C3_witness :
    mapGet [] "x" = none ∧
    UseTurboCollection.updateDoc [] "x" (fun c _ => Except.ok c) ⟨"g1", 0, "u1"⟩
        (TResp.success () none none)
      = Except.ok ⟨[], TResp.fail ⟨"", "Document with id \"x\" not found"⟩
          (some "Update Failed")
          (some "Cannot update non-existent document with id \"x\""), false⟩ := by
  refine ⟨rfl, ?_⟩
  have h := C3_theorem.1 [] "x" (fun c _ => Except.ok c) ⟨"g1", 0, "u1"⟩
    (TResp.success () none none) rfl
  exact h.trans (by rfl)

/-- Claim C7 counterexample: the claim says upsert's rollback removes the
entry when there was none, but `TurboDocumentService.upsertDoc` performs no
rollback — upserting into an absent mirror with a failing remote leaves
the upserted value installed. -/
theorem C7_counterexample :
    (TurboDocumentService.upsertDoc none (fun _ _ => Except.ok ⟨"a", 1⟩)
        ⟨"g1", 0, "u1"⟩ (TResp.fail ⟨"", "offline"⟩ none none)).resp
      = TResp.fail ⟨"", "offline"⟩ none none ∧
    (TurboDocumentService.upsertDoc none (fun _ _ => Except.ok ⟨"a", 1⟩)
        ⟨"g1", 0, "u1"⟩ (TResp.fail ⟨"", "offline"⟩ none none)).state
      ≠ none := by
  exact ⟨rfl, by decide⟩

/-- Claim C7 (amended): no upsert pre-checks existence — in all three
coordinators the transform receives the current value or absence and the
remote call is made either way; on remote failure the two hooks restore
the previous value or remove the entry when there was none, while
`TurboDocumentService` performs no rollback and leaves the upserted value
in the mirror. -/
theorem C7_theorem :
    (∀ (m : CollMap) (id : String) (d : UpsertDef) (vars : Vars) (u : Entity)
        (t tm : Option String),
      d (mapGet m id) vars = Except.ok u →
      UseTurboCollection.upsertDoc m id d vars (TResp.success () t tm)
        = Except.ok ⟨mapSet m id u, TResp.success u t tm, true⟩) ∧
    (∀ (m : CollMap) (id : String) (d : UpsertDef) (vars : Vars) (u : Entity)
        (e : Err) (t tm : Option String),
      d (mapGet m id) vars = Except.ok u →
      ∃ rolled, UseTurboCollection.upsertDoc m id d vars (TResp.fail e t tm)
        = Except.ok ⟨rolled, TResp.fail e t tm, true⟩ ∧
      mapGet rolled id = mapGet m id ∧ ∀ k, mapGet rolled k = mapGet m k) ∧
    (∀ (cur : Option Entity) (d : UpsertDef) (vars : Vars) (u : Entity)
        (t tm : Option String),
      d cur vars = Except.ok u →
      UseTurboDocument.upsertDoc cur d vars (TResp.success () t tm)
        = Except.ok ⟨some u, TResp.success u none none, true⟩) ∧
    (∀ (cur : Option Entity) (d : UpsertDef) (vars : Vars) (u : Entity)
        (e : Err) (t tm : Option String),
      d cur vars = Except.ok u →
      UseTurboDocument.upsertDoc cur d vars (TResp.fail e t tm)
        = Except.ok ⟨cur, TResp.fail e t tm, true⟩) ∧
    (∀ (cur : Option Entity) (d : UpsertDef) (vars : Vars) (u : Entity)
        (t tm : Option String),
      d cur vars = Except.ok u →
      TurboDocumentService.upsertDoc cur d vars (TResp.success () t tm)
        = ⟨some u, TResp.success u none none, true⟩) ∧
    (∀ (cur : Option Entity) (d : UpsertDef) (vars : Vars) (u : Entity)
        (e : Err) (t tm : Option String),
      d cur vars = Except.ok u →
      TurboDocumentService.upsertDoc cur d vars (TResp.fail e t tm)
        = ⟨some u, TResp.fail e t tm, true⟩) := by
  refine ⟨?_, ?_, ?_, ?_, ?_, ?_⟩
  · intro m id d vars u t tm hd
    simp [UseTurboCollection.upsertDoc, hd]
  · intro m id d vars u e t tm hd
    cases hcur : mapGet m id with
    | some previousDoc =>
      rw [hcur] at hd
      refine ⟨mapSet (mapSet m id u) id previousDoc, ?_,
        (mapGet_rollback_set hcur u id).trans hcur, mapGet_rollback_set hcur u⟩
      simp [UseTurboCollection.upsertDoc, hcur, hd]
    | none =>
      rw [hcur] at hd
      refine ⟨m, ?_, hcur, fun k => rfl⟩
      simp [UseTurboCollection.upsertDoc, hcur, hd, rollback_create_fresh u hcur]
  · intro cur d vars u t tm hd
    simp [UseTurboDocument.upsertDoc, hd]
  · intro cur d vars u e t tm hd
    simp [UseTurboDocument.upsertDoc, hd]
  · intro cur d vars u t tm hd
    simp [TurboDocumentService.upsertDoc, hd]
  · intro cur d vars u e t tm hd
    simp [TurboDocumentService.upsertDoc, hd]

/-- Claim C7 witness: the amended theorem applied to an absent identity
with a failing remote — the rollback removes the optimistic entry. -/
theorem C7_witness :
    ((fun (_ : Option Entity) (_ : Vars) =>
        (Except.ok (⟨"b", 7⟩ : Entity) : Except Fault Entity))
        (mapGet [] "b") ⟨"g1", 0, "u1"⟩ = Except.ok (⟨"b", 7⟩ : Entity)) ∧
    ∃ rolled, UseTurboCollection.upsertDoc [] "b"
        (fun _ _ => Except.ok ⟨"b", 7⟩) ⟨"g1", 0, "u1"⟩
        (TResp.fail ⟨"", "offline"⟩ none none)
      = Except.ok ⟨rolled, TResp.fail ⟨"", "offline"⟩ none none, true⟩ ∧
      mapGet rolled "b" = mapGet [] "b" ∧ ∀ k, mapGet rolled k = mapGet [] k :=
  ⟨rfl, C7_theorem.2.1 [] "b" (fun _ _ => Except.ok ⟨"b", 7⟩) ⟨"g1", 0, "u1"⟩
    ⟨"b", 7⟩ ⟨"", "offline"⟩ none none rfl⟩

/-- Claim C8 counterexample: a caller-supplied transform that throws
escapes `useTurboCollection.createDoc` as an uncaught fault instead of
resolving with a failure result. -/
theorem C8_counterexample :
    UseTurboCollection.createDoc [] (fun _ => Except.error "boom")
        ⟨"g1", 0, "u1"⟩ (TResp.success () none none)
      = Except.error "boom" := rfl

/-- Claim C8 (amended): `TurboDocumentService`'s mutations resolve with a
success-or-failure result for every behaviour of the Remote Store, the
caller-supplied transform and the caller-supplied serialization — a throw
from the transform, or from `pDoc.toJson()` in updateDoc, happens inside
the method's try/catch and is converted to a failure result.  The two
hooks resolve with a result value for every Remote Store behaviour when
the caller-supplied code returns normally, but a raising transform escapes
any hook mutation uncaught, and in both hooks' updateDoc a raising
`updatedDoc.toJson()` — evaluated in hook scope after the optimistic
write, outside any try — also escapes uncaught, with the optimistic value
left in the mirror and the remote store never invoked.  (createDoc and
upsertDoc serialization runs inside the api layer's try and surfaces as a
failure result, covered by the remote-outcome quantification.) -/
theorem C8_theorem :
    (∀ (cur : Option Entity) (vars : Vars) (remote : TResp Unit) (f : Fault),
      TurboDocumentService.createDoc cur (fun _ => Except.error f) vars remote
        = ⟨cur, TResp.fail ⟨"", f⟩ none none, false⟩) ∧
    (∀ (cur : Entity) (serialize : Entity → Except Fault Unit) (vars : Vars)
        (remote : TResp Unit) (f : Fault),
      TurboDocumentService.updateDocFull (some cur) (fun _ _ => Except.error f)
          serialize vars remote
        = ⟨some cur, TResp.fail ⟨"", f⟩ none none, false⟩) ∧
    (∀ (cur u : Entity) (d : UpdateDef) (serialize : Entity → Except Fault Unit)
        (vars : Vars) (remote : TResp Unit) (f : Fault),
      d cur vars = Except.ok u → serialize u = Except.error f →
      TurboDocumentService.updateDocFull (some cur) d serialize vars remote
        = ⟨some u, TResp.fail ⟨"", f⟩ none none, false⟩) ∧
    (∀ (cur : Option Entity) (vars : Vars) (remote : TResp Unit) (f : Fault),
      TurboDocumentService.upsertDoc cur (fun _ _ => Except.error f) vars remote
        = ⟨cur, TResp.fail ⟨"", f⟩ none none, false⟩) ∧
    (∀ (m : CollMap) (d : CreateDef) (vars : Vars) (remote : TResp Unit) (u : Entity),
      d vars = Except.ok u →
      ∃ out, UseTurboCollection.createDoc m d vars remote = Except.ok out) ∧
    (∀ (m : CollMap) (id : String) (d : UpdateDef)
        (serialize : Entity → Except Fault Unit) (vars : Vars) (remote : TResp Unit),
      mapGet m id = none →
      ∃ out, UseTurboCollection.updateDocFull m id d serialize vars remote
        = Except.ok out) ∧
    (∀ (m : CollMap) (id : String) (d : UpdateDef)
        (serialize : Entity → Except Fault Unit) (vars : Vars) (remote : TResp Unit)
        (cur u : Entity),
      mapGet m id = some cur → d cur vars = Except.ok u →
      serialize u = Except.ok () →
      ∃ out, UseTurboCollection.updateDocFull m id d serialize vars remote
        = Except.ok out) ∧
    (∀ (cur : Option Entity) (d : CreateDef) (vars : Vars) (remote : TResp Unit)
        (u : Entity),
      d vars = Except.ok u →
      ∃ out, UseTurboDocument.createDoc cur d vars remote = Except.ok out) ∧
    (∀ (m : CollMap) (vars : Vars) (remote : TResp Unit) (f : Fault),
      UseTurboCollection.createDoc m (fun _ => Except.error f) vars remote
        = Except.error f) ∧
    (∀ (m : CollMap) (id : String) (serialize : Entity → Except Fault Unit)
        (vars : Vars) (remote : TResp Unit) (cur : Entity) (f : Fault),
      mapGet m id = some cur →
      UseTurboCollection.updateDocFull m id (fun _ _ => Except.error f)
          serialize vars remote
        = Except.error (f, m)) ∧
    (∀ (m : CollMap) (id : String) (d : UpdateDef)
        (serialize : Entity → Except Fault Unit) (vars : Vars) (remote : TResp Unit)
        (cur u : Entity) (f : Fault),
      mapGet m id = some cur → d cur vars = Except.ok u →
      serialize u = Except.error f →
      UseTurboCollection.updateDocFull m id d serialize vars remote
        = Except.error (f, mapSet m id u)) ∧
    (∀ (cur : Option Entity) (vars : Vars) (remote : TResp Unit) (f : Fault),
      UseTurboDocument.createDoc cur (fun _ => Except.error f) vars remote
        = Except.error f) ∧
    (∀ (cur : Option Entity) (vars : Vars) (remote : TResp Unit) (f : Fault),
      UseTurboDocument.upsertDoc cur (fun _ _ => Except.error f) vars remote
        = Except.error f) ∧
    (∀ (currentDoc : Entity) (serialize : Entity → Except Fault Unit) (vars : Vars)
        (remote : TResp Unit) (f : Fault),
      UseTurboDocument.updateDocFull (some currentDoc) (fun _ _ => Except.error f)
          serialize vars remote
        = Except.error (f, some currentDoc)) ∧
    (∀ (currentDoc u : Entity) (d : UpdateDef)
        (serialize : Entity → Except Fault Unit) (vars : Vars) (remote : TResp Unit)
        (f : Fault),
      d currentDoc vars = Except.ok u → serialize u = Except.error f →
      UseTurboDocument.updateDocFull (some currentDoc) d serialize vars remote
        = Except.error (f, some u)) := by
  refine ⟨fun _ _ _ _ => rfl, fun _ _ _ _ _ => rfl, ?_, fun _ _ _ _ => rfl,
    ?_, ?_, ?_, ?_, fun _ _ _ _ => rfl, ?_, ?_, fun _ _ _ _ => rfl,
    fun _ _ _ _ => rfl, fun _ _ _ _ _ => rfl, ?_⟩
  · intro cur u d serialize vars remote f hd hser
    simp [TurboDocumentService.updateDocFull, hd, hser]
  · intro m d vars remote u hd
    cases remote with
    | success v t tm =>
      exact ⟨⟨mapSet m u.id u, TResp.success u t tm, true⟩,
        by simp [UseTurboCollection.createDoc, hd]⟩
    | fail e t tm =>
      exact ⟨⟨mapDelete (mapSet m u.id u) u.id, TResp.fail e t tm, true⟩,
        by simp [UseTurboCollection.createDoc, hd]⟩
  · intro m id d serialize vars remote hnone
    exact ⟨⟨m, TResp.fail ⟨"", "Document with id \"" ++ id ++ "\" not found"⟩
        (some "Update Failed")
        (some ("Cannot update non-existent document with id \"" ++ id ++ "\"")), false⟩,
      by simp [UseTurboCollection.updateDocFull, hnone]⟩
  · intro m id d serialize vars remote cur u hcur hd hser
    cases remote with
    | success v t tm =>
      exact ⟨⟨mapSet m id u, TResp.success u t tm, true⟩,
        by simp [UseTurboCollection.updateDocFull, hcur, hd, hser]⟩
    | fail e t tm =>
      exact ⟨⟨mapSet (mapSet m id u) id cur, TResp.fail e t tm, true⟩,
        by simp [UseTurboCollection.updateDocFull, hcur, hd, hser]⟩
  · intro cur d vars remote u hd
    cases remote with
    | success v t tm =>
      exact ⟨⟨some u, TResp.success u none none, true⟩,
        by simp [UseTurboDocument.createDoc, hd]⟩
    | fail e t tm =>
      exact ⟨⟨cur, TResp.fail e t tm, true⟩,
        by simp [UseTurboDocument.createDoc, hd]⟩
  · intro m id serialize vars remote cur f hcur
    simp [UseTurboCollection.updateDocFull, hcur]
  · intro m id d serialize vars remote cur u f hcur hd hser
    simp [UseTurboCollection.updateDocFull, hcur, hd, hser]
  · intro currentDoc u d serialize vars remote f hd hser
    simp [UseTurboDocument.updateDocFull, hd, hser]

/-- Claim C8 witness: the amended theorem applied to a singleton mirror
whose update transform returns normally and whose serialization raises —
the fault escapes with the optimistic value left in the mirror,
independently of the remote outcome. -/
theorem C8_witness :
    mapGet [("a", (⟨"a", 1⟩ : Entity))] "a" = some ⟨"a", 1⟩ ∧
    UseTurboCollection.updateDocFull [("a", (⟨"a", 1⟩ : Entity))] "a"
        (fun _ _ => Except.ok ⟨"a", 2⟩) (fun _ => Except.error "toJson failed")
        ⟨"g1", 0, "u1"⟩ (TResp.success () none none)
      = Except.error ("toJson failed", [("a", (⟨"a", 2⟩ : Entity))]) := by
  refine ⟨rfl, ?_⟩
  have h := C8_theorem.2.2.2.2.2.2.2.2.2.2.1 [("a", (⟨"a", 1⟩ : Entity))] "a"
    (fun _ _ => Except.ok ⟨"a", 2⟩) (fun _ => Except.error "toJson failed")
    ⟨"g1", 0, "u1"⟩ (TResp.success () none none) ⟨"a", 1⟩ ⟨"a", 2⟩
    "toJson failed" rfl rfl rfl
  exact h.trans (by rfl)

/-- Claim C2 counterexample: `createDocs` rolls back by deleting every
created id, so when a created id collides with an entry that existed
before the call, the rollback erases the pre-existing entry — the mirror
does not equal its pre-call state. -/
theorem C2_counterexample :
    UseTurboCollection.createDocs [("a", (⟨"a", 1⟩ : Entity))]
        [fun _ => Except.ok ⟨"a", 2⟩] ⟨"g1", 0, "u1"⟩
        (fun _ => TResp.fail ⟨"", "malformed id"⟩ none none) (Except.ok ())
      = Except.ok ⟨[], TResp.fail ⟨"", "malformed id"⟩ none none, true⟩ ∧
    mapGet ([] : CollMap) "a" ≠ mapGet [("a", (⟨"a", 1⟩ : Entity))] "a" := by
  exact ⟨rfl, by decide⟩

/-- Claim C2 (amended): when at least one per-item staging step or the
final commit fails, the batch resolves with a failure result and every
optimistically-applied local change is reverted — exactly for
`deleteDocs`, for `updateDocs` when the caller-supplied transforms
preserve document ids, and for `createDocs` when every created identity
was absent from the mirror before the call (its rollback deletes the
created ids, so a colliding id's pre-existing entry would be lost). -/
theorem C2_theorem :
    (∀ (m : CollMap) (defs : List CreateDef) (vars : Vars)
        (stage : Entity → TResp Unit) (commit : Except Err Unit)
        (newDocs : List Entity),
      defs.mapM (fun d => d vars) = Except.ok newDocs →
      (∀ u ∈ newDocs, mapGet m u.id = none) →
      ((∃ u ∈ newDocs, (stage u).isSuccess = false) ∨
        (∃ e, commit = Except.error e)) →
      ∃ out, UseTurboCollection.createDocs m defs vars stage commit = Except.ok out ∧
        out.resp.isSuccess = false ∧ ∀ k, mapGet out.state k = mapGet m k) ∧
    (∀ (m : CollMap) (updates : List (String × UpdateDef)) (vars : Vars)
        (stage : Entity → TResp Unit) (commit : Except Err Unit)
        (prev : List (String × Entity)) (ups : List Entity),
      (∀ p ∈ updates, ∀ c u, p.2 c vars = Except.ok u → u.id = p.1) →
      UseTurboCollection.collectUpdates m vars [] [] updates
        = Except.ok (UseTurboCollection.BatchPrep.ready prev ups) →
      ((∃ u ∈ ups, (stage u).isSuccess = false) ∨
        (∃ e, commit = Except.error e)) →
      ∃ out, UseTurboCollection.updateDocs m updates vars stage commit = Except.ok out ∧
        out.resp.isSuccess = false ∧ ∀ k, mapGet out.state k = mapGet m k) ∧
    (∀ (m : CollMap) (ids : List String) (stage : String → TResp Unit)
        (commit : Except Err Unit) (prev : List (String × Entity))
        (ups0 : List Entity),
      UseTurboCollection.collectDeletes m [] ids
        = UseTurboCollection.BatchPrep.ready prev ups0 →
      ((∃ i ∈ ids, (stage i).isSuccess = false) ∨
        (∃ e, commit = Except.error e)) →
      (UseTurboCollection.deleteDocs m ids stage commit).resp.isSuccess = false ∧
      ∀ k, mapGet (UseTurboCollection.deleteDocs m ids stage commit).state k
        = mapGet m k) := by
  refine ⟨?_, ?_, ?_⟩
  · intro m defs vars stage commit newDocs hmapM hfresh hfailing
    cases hfind : (newDocs.map stage).find? (fun r => !r.isSuccess) with
    | some r =>
      have hr := List.find?_some hfind
      cases r with
      | success v t tm => simp [TResp.isSuccess] at hr
      | fail e t tm =>
        refine ⟨⟨deleteAll (setAll m newDocs) newDocs, TResp.fail e t tm, true⟩,
          ?_, rfl, createDocs_rollback hfresh⟩
        simp only [UseTurboCollection.createDocs, hmapM, hfind]
    | none =>
      have hall := List.find?_eq_none.mp hfind
      rcases hfailing with ⟨u, hu, hstage⟩ | ⟨e, hcommit⟩
      · exact absurd (by simp [hstage])
          (hall (stage u) (List.mem_map_of_mem stage hu))
      · subst hcommit
        refine ⟨⟨deleteAll (setAll m newDocs) newDocs,
          TResp.fail e (some "Batch Create Failed")
            (some "Failed to commit batch create operation"), true⟩,
          ?_, rfl, createDocs_rollback hfresh⟩
        simp only [UseTurboCollection.createDocs, hmapM, hfind]
  · intro m updates vars stage commit prev ups hpres hcollect hfailing
    cases hfind : (ups.map stage).find? (fun r => !r.isSuccess) with
    | some r =>
      have hr := List.find?_some hfind
      cases r with
      | success v t tm => simp [TResp.isSuccess] at hr
      | fail e t tm =>
        refine ⟨⟨restoreAll (setAll m ups) prev, TResp.fail e t tm, true⟩,
          ?_, rfl, UseTurboCollection.updateDocs_rollback hpres hcollect⟩
        simp only [UseTurboCollection.updateDocs, hcollect, hfind]
    | none =>
      have hall := List.find?_eq_none.mp hfind
      rcases hfailing with ⟨u, hu, hstage⟩ | ⟨e, hcommit⟩
      · exact absurd (by simp [hstage])
          (hall (stage u) (List.mem_map_of_mem stage hu))
      · subst hcommit
        refine ⟨⟨restoreAll (setAll m ups) prev,
          TResp.fail e (some "Batch Update Failed")
            (some "Failed to commit batch update operation"), true⟩,
          ?_, rfl, UseTurboCollection.updateDocs_rollback hpres hcollect⟩
        simp only [UseTurboCollection.updateDocs, hcollect, hfind]
  · intro m ids stage commit prev ups0 hcollect hfailing
    cases hfind : (ids.map stage).find? (fun r => !r.isSuccess) with
    | some r =>
      have hr := List.find?_some hfind
      cases r with
      | success v t tm => simp [TResp.isSuccess] at hr
      | fail e t tm =>
        constructor
        · simp only [UseTurboCollection.deleteDocs, hcollect, hfind]
          rfl
        · intro k
          have hst : (UseTurboCollection.deleteDocs m ids stage commit).state
              = restoreAll (deleteAllIds m ids) prev := by
            simp only [UseTurboCollection.deleteDocs, hcollect, hfind]
          rw [hst]
          exact UseTurboCollection.deleteDocs_rollback hcollect k
    | none =>
      have hall := List.find?_eq_none.mp hfind
      rcases hfailing with ⟨i, hi, hstage⟩ | ⟨e, hcommit⟩
      · exact absurd (by simp [hstage])
          (hall (stage i) (List.mem_map_of_mem stage hi))
      · subst hcommit
        constructor
        · simp only [UseTurboCollection.deleteDocs, hcollect, hfind]
          rfl
        · intro k
          have hst : (UseTurboCollection.deleteDocs m ids stage
                (Except.error e)).state
              = restoreAll (deleteAllIds m ids) prev := by
            simp only [UseTurboCollection.deleteDocs, hcollect, hfind]
          rw [hst]
          exact UseTurboCollection.deleteDocs_rollback hcollect k

/-- Claim C2 witness: the amended theorem's delete part applied to a
one-entry mirror whose single staged deletion fails. -/
theorem C2_witness :
    UseTurboCollection.collectDeletes [("a", (⟨"a", 1⟩ : Entity))] [] ["a"]
      = UseTurboCollection.BatchPrep.ready [("a", (⟨"a", 1⟩ : Entity))] [] ∧
    (UseTurboCollection.deleteDocs [("a", (⟨"a", 1⟩ : Entity))] ["a"]
        (fun _ => TResp.fail ⟨"", "staging failed"⟩ none none)
        (Except.ok ())).resp.isSuccess = false ∧
    mapGet (UseTurboCollection.deleteDocs [("a", (⟨"a", 1⟩ : Entity))] ["a"]
        (fun _ => TResp.fail ⟨"", "staging failed"⟩ none none)
        (Except.ok ())).state "a"
      = mapGet [("a", (⟨"a", 1⟩ : Entity))] "a" := by
  have h := C2_theorem.2.2 [("a", (⟨"a", 1⟩ : Entity))] ["a"]
    (fun _ => TResp.fail ⟨"", "staging failed"⟩ none none) (Except.ok ())
    [("a", (⟨"a", 1⟩ : Entity))] [] rfl
    (Or.inl ⟨"a", List.mem_singleton.mpr rfl, rfl⟩)
  exact ⟨rfl, h.1, h.2 "a"⟩

set_option maxRecDepth 10000 in
/-- Claim C4 counterexample: in `FirebaseAuthService` the retry count is
incremented only by the timer callback, so the 20th consecutive
subscription error still sees `_nrOfRetry = 19 < 20` and schedules another
retry timer — the supervisor is not exhausted after exactly `maxRetries`
errors — and the retry path never invokes `onDone`. -/
theorem C4_counterexample :
    (FirebaseAuthService.cycles 19).nrOfRetry = 19 ∧
    (FirebaseAuthService.streamErrorCallback
      (FirebaseAuthService.cycles 19)).timerScheduled = true ∧
    (FirebaseAuthService.streamErrorCallback
      (FirebaseAuthService.cycles 19)).onDoneFired = false := by
  refine ⟨by decide, by decide, by decide⟩

set_option maxRecDepth 10000 in
/-- Claim C4 (amended): in `useAuthSync`, after exactly `maxRetries`
consecutive subscription errors with no intervening successful stream
setup, the supervisor is exhausted — no retry timer is scheduled by the
final error, `isRetrying` is false, the retry count equals `maxRetries`,
and `onDone` fires with `(maxRetries, maxRetries)`.  In
`FirebaseAuthService` exhaustion requires `maxNrOfRetry + 1` errors: the
20th consecutive error still schedules a retry timer, and `_tryRetry`
never invokes `onDone` on any state. -/
theorem C4_theorem :
    (∀ (maxRetries : Nat) (s0 : UseAuthSync.AuthSyncState),
      1 ≤ maxRetries → s0.retryCount = 0 →
      (UseAuthSync.handleStreamError maxRetries
        (UseAuthSync.errStates maxRetries s0 (maxRetries - 1))).timerScheduled = false ∧
      (UseAuthSync.handleStreamError maxRetries
        (UseAuthSync.errStates maxRetries s0 (maxRetries - 1))).onDoneFired
        = some (maxRetries, maxRetries) ∧
      (UseAuthSync.handleStreamError maxRetries
        (UseAuthSync.errStates maxRetries s0 (maxRetries - 1))).state.isRetrying = false ∧
      (UseAuthSync.handleStreamError maxRetries
        (UseAuthSync.errStates maxRetries s0 (maxRetries - 1))).state.retryCount
        = maxRetries) ∧
    ((FirebaseAuthService.streamErrorCallback
        (FirebaseAuthService.cycles 19)).timerScheduled = true ∧
      (∀ s : FirebaseAuthService.FAuthState,
        (FirebaseAuthService.tryRetry s).onDoneFired = false)) := by
  constructor
  · intro maxRetries s0 h1 h0
    have hrc : (UseAuthSync.errStates maxRetries s0 (maxRetries - 1)).retryCount
        = maxRetries - 1 := by
      rw [UseAuthSync.errStates_retryCount, h0, Nat.zero_add]
    have hsum : (UseAuthSync.errStates maxRetries s0 (maxRetries - 1)).retryCount + 1
        = maxRetries := by omega
    have hcond : maxRetries
        ≤ (UseAuthSync.errStates maxRetries s0 (maxRetries - 1)).retryCount + 1 := by
      omega
    unfold UseAuthSync.handleStreamError
    simp [hcond, hsum]
  · refine ⟨by decide, ?_⟩
    intro s
    by_cases h : s.nrOfRetry < FirebaseAuthService.maxNrOfRetry <;>
      simp [FirebaseAuthService.tryRetry, h]

/-- Claim C4 witness: the amended theorem's `useAuthSync` part applied
with `maxRetries = 3` to an idle supervisor state. -/
theorem C4_witness :
    (1 : Nat) ≤ 3 ∧
    (UseAuthSync.handleStreamError 3
      (UseAuthSync.errStates 3 ⟨false, none, false, 0, none, false, none⟩ 2)).timerScheduled
        = false ∧
    (UseAuthSync.handleStreamError 3
      (UseAuthSync.errStates 3 ⟨false, none, false, 0, none, false, none⟩ 2)).onDoneFired
        = some (3, 3) := by
  have h := C4_theorem.1 3 ⟨false, none, false, 0, none, false, none⟩
    (by decide) rfl
  exact ⟨by decide, h.1, h.2.1⟩

/-- Claim C5 counterexample: `FirebaseAuthService`'s sign-out branch leaves
a pending retry timer uncancelled and does not reset the retry count,
contradicting the claim that after sign-out the retry count is 0 and any
pending retry timer is cancelled. -/
theorem C5_counterexample :
    (FirebaseAuthService.onAuthNull ⟨some "u", some 5, some 4, true, 3, 9⟩).1.cachedUserId
      = none ∧
    (FirebaseAuthService.onAuthNull ⟨some "u", some 5, some 4, true, 3, 9⟩).1.retryTimerPending
      = true ∧
    (FirebaseAuthService.onAuthNull ⟨some "u", some 5, some 4, true, 3, 9⟩).1.nrOfRetry
      = 3 := ⟨rfl, rfl, rfl⟩

/-- Claim C5 (amended): on a signed-out observation `useAuthSync` clears
the cached subject, resets the retry state, cancels any pending retry
timer, stops the live subscription exactly once (if any) and invokes the
data callback exactly once with `(none, none)`; `FirebaseAuthService`
clears the cached subject, stops the data subscription exactly once (if
any) and invokes `onData(null, null)` exactly once, but leaves any pending
retry timer and the retry count untouched. -/
theorem C5_theorem :
    (∀ (maxRetries : Nat) (s : UseAuthSync.AuthSyncState),
      (UseAuthSync.handleSignOut maxRetries s).state.cachedUserId = none ∧
      (UseAuthSync.handleSignOut maxRetries s).state.retryCount = 0 ∧
      (UseAuthSync.handleSignOut maxRetries s).state.isRetrying = false ∧
      (UseAuthSync.handleSignOut maxRetries s).state.retryTimerPending = false ∧
      (UseAuthSync.handleSignOut maxRetries s).state.streamSub = none ∧
      (UseAuthSync.handleSignOut maxRetries s).releasedSubs = s.streamSub.toList ∧
      (UseAuthSync.handleSignOut maxRetries s).onDataCalls = [(none, none)]) ∧
    (∀ s : FirebaseAuthService.FAuthState,
      (FirebaseAuthService.onAuthNull s).1.cachedUserId = none ∧
      (FirebaseAuthService.onAuthNull s).1.subscription = none ∧
      (FirebaseAuthService.onAuthNull s).2.1 = s.subscription.toList ∧
      (FirebaseAuthService.onAuthNull s).2.2 = [(none, none)] ∧
      (FirebaseAuthService.onAuthNull s).1.retryTimerPending = s.retryTimerPending ∧
      (FirebaseAuthService.onAuthNull s).1.nrOfRetry = s.nrOfRetry) := by
  constructor
  · intro maxRetries s
    refine ⟨rfl, rfl, rfl, rfl, rfl, ?_, rfl⟩
    cases hs : s.streamSub <;> simp [UseAuthSync.handleSignOut, hs]
  · intro s
    refine ⟨rfl, rfl, ?_, rfl, rfl, rfl⟩
    cases hs : s.subscription <;> simp [FirebaseAuthService.onAuthNull, hs]

/-- Claim C6 counterexample: two consecutive signed-in deliveries to
`FirebaseAuthService` do not follow stop-before-start — the second call
installs nothing and releases nothing (`_subscription ??=` is a no-op
while a handle is live), so the first call's handle is never released and
no second handle exists; the combined subscription-event trace of both
calls holds a single install and no release. -/
theorem C6_counterexample :
    (FirebaseAuthService.onAuthUser
      ((FirebaseAuthService.onAuthUser ⟨none, none, none, false, 0, 1⟩ "u").1) "u").2
      = [] ∧
    (FirebaseAuthService.onAuthUser
      ((FirebaseAuthService.onAuthUser ⟨none, none, none, false, 0, 1⟩ "u").1) "u").1.subscription
      = some 1 ∧
    (FirebaseAuthService.onAuthUser ⟨none, none, none, false, 0, 1⟩ "u").2 ++
      (FirebaseAuthService.onAuthUser
        ((FirebaseAuthService.onAuthUser ⟨none, none, none, false, 0, 1⟩ "u").1) "u").2
      = [SubEvent.installed 1] := ⟨rfl, rfl, rfl⟩

/-- Claim C6 (amended): `TurboDocumentService.stream` and
`useAuthSync.setupStream` obey stop-before-start — after two consecutive
start calls exactly one handle is live (the second call's), and the second
call's event trace releases the first call's handle before installing its
own.  `FirebaseAuthService.tryInitialiseStream`'s data-subscription setup
is instead an idempotent no-op: while a handle is live a second signed-in
delivery installs and releases nothing, leaving the first call's handle as
the single live handle. -/
theorem C6_theorem :
    (∀ (sub : Option Nat) (h1 h2 : Nat),
      TurboDocumentService.stream (TurboDocumentService.stream sub h1).1 h2
        = (some h2, [SubEvent.released h1, SubEvent.installed h2])) ∧
    (∀ (maxRetries : Nat) (s : UseAuthSync.AuthSyncState) (h1 h2 : Nat),
      (UseAuthSync.setupStream maxRetries
        (UseAuthSync.setupStream maxRetries s (Except.ok h1)).state
        (Except.ok h2)).state.streamSub = some h2 ∧
      (UseAuthSync.setupStream maxRetries
        (UseAuthSync.setupStream maxRetries s (Except.ok h1)).state
        (Except.ok h2)).events = [SubEvent.released h1, SubEvent.installed h2]) ∧
    (∀ (s : FirebaseAuthService.FAuthState) (uid uid' : String),
      s.subscription = none →
      (FirebaseAuthService.onAuthUser s uid).2 = [SubEvent.installed s.nextHandle] ∧
      (FirebaseAuthService.onAuthUser
        ((FirebaseAuthService.onAuthUser s uid).1) uid').1.subscription
        = some s.nextHandle ∧
      (FirebaseAuthService.onAuthUser
        ((FirebaseAuthService.onAuthUser s uid).1) uid').2 = []) := by
  refine ⟨?_, ?_, ?_⟩
  · intro sub h1 h2
    rfl
  · intro maxRetries s h1 h2
    exact ⟨rfl, rfl⟩
  · intro s uid uid' hnone
    refine ⟨?_, ?_, ?_⟩ <;>
      simp [FirebaseAuthService.onAuthUser, hnone]

/-- Claim C6 witness: the amended theorem applied to a service with no
live data subscription. -/
theorem C6_witness :
    (FirebaseAuthService.FAuthState.subscription ⟨none, none, none, false, 0, 1⟩
      = none) ∧
    (FirebaseAuthService.onAuthUser ⟨none, none, none, false, 0, 1⟩ "u").2
      = [SubEvent.installed 1] ∧
    (FirebaseAuthService.onAuthUser
      ((FirebaseAuthService.onAuthUser ⟨none, none, none, false, 0, 1⟩ "u").1) "u").1.subscription
      = some 1 := by
  have h := C6_theorem.2.2 ⟨none, none, none, false, 0, 1⟩ "u" "u" rfl
  exact ⟨rfl, h.1, h.2.1⟩

end Turbo
